import Mathlib

/-!
# Verification of the PhilReviews browsing UI (`src/static/app.js`)

A shallow embedding of the client-side filter / sort / paginate / URL-sync
pipeline of the PhilReviews review browser, together with proofs checking the
natural-language specification against it.

JavaScript strings are modelled as Lean `String`s (lists of characters);
JavaScript numbers appearing here are integers in every reachable use, so they
are modelled as `Int`/`Nat`.  `parseInt(s, 10)` is modelled as a partial parse
returning `Option Int` (`none` for `NaN`).  `String.prototype.toLowerCase` is
modelled as ASCII case folding (`'A'..'Z'` mapped down), and
`String.prototype.trim` as stripping the common whitespace characters, which is
faithful on all data the application handles.  A JavaScript `Set` of strings is
modelled as a duplicate-free `List String` in insertion order.
-/

/-! ## JavaScript string and number primitives -/

/-- Whitespace recognised by the model of `trim` / `parseInt` skipping. -/
def isJsWS (c : Char) : Bool :=
  c.toNat = 32 || c.toNat = 9 || c.toNat = 10 || c.toNat = 13 ||
  c.toNat = 11 || c.toNat = 12

/-- Decimal digit test, by code point. -/
def isDigitCh (c : Char) : Bool := 48 ≤ c.toNat && c.toNat ≤ 57

/-- The decimal digit character for `d < 10`. -/
def digitCh (d : Nat) : Char := Char.ofNat (48 + d)

/-- Reading a digit string most-significant-first, as `parseInt` does once the
digit run has been isolated. -/
def digitsToNat (ds : List Char) : Nat :=
  ds.foldl (fun a c => a * 10 + (c.toNat - 48)) 0

/-- Fuel-driven decimal printing, least work at the front of `acc`.
Structural recursion so that the kernel can evaluate it. -/
def natDigitsAux : Nat → Nat → List Char → List Char
  | 0, _, acc => acc
  | fuel + 1, n, acc =>
    if n < 10 then digitCh n :: acc
    else natDigitsAux fuel (n / 10) (digitCh (n % 10) :: acc)

/-- Decimal digits of `n`, most significant first (`String(n)` for `n ≥ 0`). -/
def natDigits (n : Nat) : List Char := natDigitsAux (n + 1) n []

/-- Model of JavaScript number-to-string conversion for integers, as used when
an integer is written into `URLSearchParams`. -/
def jsIntToString (n : Int) : String :=
  if n < 0 then String.mk ('-' :: natDigits (-n).toNat)
  else String.mk (natDigits n.toNat)

/-- The leading digit run of `cs`, as a number; `none` when there is none. -/
def parseDigits (cs : List Char) : Option Nat :=
  let ds := cs.takeWhile isDigitCh
  if ds.isEmpty then none else some (digitsToNat ds)

/-- `parseInt` on a character list: skip leading whitespace, optional sign,
read the leading digit run; `none` models `NaN`. -/
def jsParseIntCL (l : List Char) : Option Int :=
  match l.dropWhile isJsWS with
  | '-' :: rest => (parseDigits rest).map (fun n => -(n : Int))
  | '+' :: rest => (parseDigits rest).map (fun n => (n : Int))
  | cs => (parseDigits cs).map (fun n => (n : Int))

/-- Model of `parseInt(s, 10)`. -/
def jsParseInt (s : String) : Option Int := jsParseIntCL s.data

/-- ASCII case folding of one character (`toLowerCase` on the app's data). -/
def jsCharLower (c : Char) : Char :=
  if 65 ≤ c.toNat ∧ c.toNat ≤ 90 then Char.ofNat (c.toNat + 32) else c

/-- Model of `String.prototype.toLowerCase`. -/
def jsToLower (s : String) : String := String.mk (s.data.map jsCharLower)

/-- Strip leading and trailing whitespace from a character list. -/
def jsTrimData (l : List Char) : List Char :=
  ((l.dropWhile isJsWS).reverse.dropWhile isJsWS).reverse

/-- Model of `String.prototype.trim`. -/
def jsTrim (s : String) : String := String.mk (jsTrimData s.data)

/-- Does `hay` start with `need`? -/
def startsWithCL : List Char → List Char → Bool
  | _, [] => true
  | [], _ :: _ => false
  | a :: as, b :: bs => a = b && startsWithCL as bs

/-- Does `hay` contain `need` as a contiguous run? -/
def containsCL : List Char → List Char → Bool
  | [], need => startsWithCL [] need
  | c :: t, need => startsWithCL (c :: t) need || containsCL t need

/-- Model of `String.prototype.includes`. -/
def strIncludes (hay need : String) : Bool := containsCL hay.data need.data

/-- Split on a single-character separator, JavaScript `split` semantics:
`""` splits to `[""]`, separators at the ends produce empty fields. -/
def jsSplitCL (sep : Char) : List Char → List Char → List (List Char)
  | [], cur => [cur.reverse]
  | c :: rest, cur =>
    if c = sep then cur.reverse :: jsSplitCL sep rest []
    else jsSplitCL sep rest (c :: cur)

/-- Model of `String.prototype.split` with a one-character separator. -/
def jsSplit (s : String) (sep : Char) : List String :=
  (jsSplitCL sep s.data []).map String.mk

/-- Model of `Array.prototype.join`. -/
def jsJoin (sep : String) : List String → String
  | [] => ""
  | x :: xs => xs.foldl (fun a b => a ++ sep ++ b) x

/-- First value stored under a key; `URLSearchParams.get` and object lookup. -/
def assocGet : List (String × String) → String → Option String
  | [], _ => none
  | (k', v) :: rest, k => if k' = k then some v else assocGet rest k

/-- `Set.prototype.add`: append unless already present. -/
def jsSetAdd (s : List String) (v : String) : List String :=
  if s.contains v then s else s ++ [v]

/-- `new Set(list)`: deduplicate keeping first occurrences. -/
def jsSetOfList (l : List String) : List String := l.foldl jsSetAdd []

/-! ## Data model (`ReviewEntry`, `ViewState`) -/

/-- One review record of the embedded dataset.  Fields the code reads without
a guard are `String`; optional fields are `Option String` (`none` models a
missing JSON key / `undefined`). -/
structure ReviewEntry where
  title : String
  author : String
  reviewer : String
  journal : String
  date : String
  access : String
  summary : Option String := none
  link : Option String := none
  subfield : Option String := none
  subfield2 : Option String := none
  symposium_group : Option String := none
  rtype : Option String := none
deriving DecidableEq, Repr

/-- The filter-relevant form-control values and facet selections.  Text fields
hold the raw `.value` strings; the selected sets are JS `Set`s in insertion
order. -/
structure Filters where
  globalSearch : String := ""
  titleFilter : String := ""
  authorFilter : String := ""
  reviewerFilter : String := ""
  yearFrom : String := ""
  yearTo : String := ""
  accessFilter : String := ""
  typeFilter : String := ""
  selectedJournals : List String := []
  selectedSubfields : List String := []
deriving DecidableEq, Repr

/-- The mutable view state together with the form state: the page-level
`state` object plus the filter controls. -/
structure Snapshot where
  filters : Filters
  page : Int := 1
  perPage : Nat := 25
  sortKey : String := "date"
  sortDir : String := "desc"
  expandedIdx : Option Int := none
deriving DecidableEq, Repr

/-- The startup state: defaults with both facets fully selected, as built in
the `DOMContentLoaded` handler. -/
def defaultSnapshot (allJournals allSubfields : List String) : Snapshot :=
  { filters := { selectedJournals := allJournals, selectedSubfields := allSubfields } }

/-- The immutable page context: the dataset and the full distinct-value lists
backing the two facets. -/
structure Ctx where
  allReviews : List ReviewEntry
  allJournals : List String
  allSubfields : List String
deriving Repr

/-- The `SUBFIELD_NAMES` code-to-label table. -/
def SUBFIELD_NAMES : List (String × String) :=
  [("ethics", "Ethics & Moral Philosophy"),
   ("applied-ethics", "Applied & Professional Ethics"),
   ("political", "Political & Social Philosophy"),
   ("legal", "Philosophy of Law"),
   ("epistemology", "Epistemology & Philosophy of Mind"),
   ("metaphysics", "Metaphysics & Logic"),
   ("science", "Philosophy of Science"),
   ("aesthetics", "Aesthetics & Philosophy of Art"),
   ("religion", "Philosophy of Religion & Theology"),
   ("history", "History of Philosophy"),
   ("ancient", "Ancient & Medieval Philosophy"),
   ("modern", "Early Modern Philosophy"),
   ("continental", "Continental & Phenomenological"),
   ("feminist", "Feminist Philosophy"),
   ("non-western", "Non-Western & Comparative")]

/-- `(SUBFIELD_NAMES[r.subfield] || "").toLowerCase()`. -/
def subfieldLabel (r : ReviewEntry) : String :=
  jsToLower ((match r.subfield with
    | some c => (assocGet SUBFIELD_NAMES c).getD ""
    | none => ""))

/-- The global-search blob
`r.title + " " + r.author + " " + r.reviewer + " " + r.journal + " " + r.date + " " + subfieldName`. -/
def searchBlob (r : ReviewEntry) : String :=
  r.title ++ " " ++ r.author ++ " " ++ r.reviewer ++ " " ++ r.journal ++ " " ++
    r.date ++ " " ++ subfieldLabel r

/-! ## Filter engine (`applyFilters`) -/

/-- Membership of an optional field value in a selected set;
`set.has(undefined)` is `false`. -/
def optHas (sel : List String) : Option String → Bool
  | some v => sel.contains v
  | none => false

/-- JS truthiness of `fy1` / `fy2`: `null` and `NaN` are `none`, and `0` is
falsy. -/
def truthyOI : Option Int → Bool
  | some v => v != 0
  | none => false

/-- The year bound as the code computes it:
`els.value ? parseInt(els.value, 10) : null` (with `NaN` collapsed into
`none`, which the code treats identically everywhere it looks). -/
def yearBound (s : String) : Option Int :=
  if s = "" then none else jsParseInt s

/-- The year-range conjunct of the filter predicate. -/
def yearFacetPass (yearFrom yearTo : String) (r : ReviewEntry) : Bool :=
  let fy1 := yearBound yearFrom
  let fy2 := yearBound yearTo
  if truthyOI fy1 || truthyOI fy2 then
    match jsParseInt (String.mk (r.date.data.take 4)) with
    | none => false
    | some y =>
      !(truthyOI fy1 && decide (y < fy1.getD 0)) &&
      !(truthyOI fy2 && decide (fy2.getD 0 < y))
  else true

/-- The journal-facet conjunct: a no-op unless the selection is smaller than
the full journal list. -/
def journalFacetPass (selJ allJ : List String) (r : ReviewEntry) : Bool :=
  if selJ.length < allJ.length then selJ.contains r.journal else true

/-- The subfield-facet conjunct: `subfield` or `subfield2` must be selected,
unless the selection is full. -/
def subfieldFacetPass (selS allS : List String) (r : ReviewEntry) : Bool :=
  if selS.length < allS.length then
    optHas selS r.subfield || optHas selS r.subfield2
  else true

/-- The whole `applyFilters` predicate for one entry, conjuncts in source
order. -/
def entryPasses (allJ allS : List String) (f : Filters) (r : ReviewEntry) : Bool :=
  let g := jsTrim (jsToLower f.globalSearch)
  let ft := jsTrim (jsToLower f.titleFilter)
  let fa := jsTrim (jsToLower f.authorFilter)
  let fr := jsTrim (jsToLower f.reviewerFilter)
  let fac := jsToLower f.accessFilter
  (g == "" || strIncludes (jsToLower (searchBlob r)) g) &&
  (ft == "" || strIncludes (jsToLower r.title) ft) &&
  (fa == "" || strIncludes (jsToLower r.author) fa) &&
  (fr == "" || strIncludes (jsToLower r.reviewer) fr) &&
  journalFacetPass f.selectedJournals allJ r &&
  subfieldFacetPass f.selectedSubfields allS r &&
  (fac == "" || jsToLower r.access == fac) &&
  (f.typeFilter == "" || (r.rtype.getD "review") == f.typeFilter) &&
  yearFacetPass f.yearFrom f.yearTo r

/-- `applyFilters`: the filtered projection of the dataset. -/
def applyFilters (allReviews : List ReviewEntry) (allJ allS : List String)
    (f : Filters) : List ReviewEntry :=
  allReviews.filter (entryPasses allJ allS f)

/-! ## Sort engine (`applySort`) -/

/-- Dynamic field access `a[key]` restricted to the record's string-valued
fields; an unknown key reads `undefined`. -/
def sortField (r : ReviewEntry) : String → Option String
  | "title" => some r.title
  | "author" => some r.author
  | "reviewer" => some r.reviewer
  | "journal" => some r.journal
  | "date" => some r.date
  | "access" => some r.access
  | "summary" => r.summary
  | "link" => r.link
  | "subfield" => r.subfield
  | "subfield2" => r.subfield2
  | "symposium_group" => r.symposium_group
  | "type" => r.rtype
  | _ => none

/-- The `applySort` comparator.  `localeCompare` is locale-dependent, so it is
a parameter `lc`; everything the code adds around it (string form of the
field with missing values as `""`, case folding, the direction sign) is
explicit. -/
def sortComparator (lc : String → String → Int) (sortKey sortDir : String)
    (a b : ReviewEntry) : Int :=
  let dir : Int := if sortDir = "asc" then 1 else -1
  let va := jsToLower ((sortField a sortKey).getD "")
  let vb := jsToLower ((sortField b sortKey).getD "")
  dir * lc va vb

/-! ## Paginator and render clamp -/

/-- `Math.max(1, Math.ceil(count / state.perPage))` (positive page size). -/
def totalPagesOf (count perPage : Nat) : Nat :=
  max 1 ((count + perPage - 1) / perPage)

/-- The page clamp performed by `render()`:
`if (state.page > totalPages) state.page = totalPages`. -/
def renderClampPage (page : Int) (count perPage : Nat) : Int :=
  if page > (totalPagesOf count perPage : Int) then (totalPagesOf count perPage : Int)
  else page

/-- `update()`: re-filter, then `render()`; of the view state only the page
clamp is observable. -/
def update (ctx : Ctx) (s : Snapshot) : Snapshot :=
  { s with
    page := renderClampPage s.page
      (applyFilters ctx.allReviews ctx.allJournals ctx.allSubfields s.filters).length
      s.perPage }

/-- One pagination-control item: a page-number button or an ellipsis. -/
inductive PageItem where
  | num : Int → PageItem
  | dots : PageItem
deriving DecidableEq, Repr

/-- Inclusive integer range `[a, b]` as a list. -/
def intRange (a b : Int) : List Int :=
  (List.range (b + 1 - a).toNat).map (fun (i : Nat) => a + (i : Int))

/-- The `pages` array built by `renderPagination` (empty when the whole
control is suppressed for `totalPages <= 1`). -/
def pageWindow (totalPages p : Int) : List PageItem :=
  if totalPages ≤ 1 then [] else
    [PageItem.num 1]
    ++ (if p > 3 then [PageItem.dots] else [])
    ++ (intRange (max 2 (p - 1)) (min (totalPages - 1) (p + 1))).map PageItem.num
    ++ (if p < totalPages - 2 then [PageItem.dots] else [])
    ++ (if totalPages > 1 then [PageItem.num totalPages] else [])

/-- Modelled from the spec: the page window the specification describes —
page 1; the contiguous range `[p-1, p+1] ∩ [2, totalPages-1]`; page
`totalPages` when different from 1; one ellipsis on a side exactly when the
shown pages leave a gap there. -/
def claimWindow (totalPages p : Int) : List PageItem :=
  let mid := intRange (max 2 (p - 1)) (min (totalPages - 1) (p + 1))
  let nextShown : Int := (mid.head?).getD totalPages
  let lastShown : Int := (mid.getLast?).getD 1
  [PageItem.num 1]
  ++ (if nextShown > 2 then [PageItem.dots] else [])
  ++ mid.map PageItem.num
  ++ (if lastShown < totalPages - 1 then [PageItem.dots] else [])
  ++ (if totalPages ≠ 1 then [PageItem.num totalPages] else [])

/-! ## URL state codec (`syncToUrl` / `readFromUrl`) -/

/-- One optional `params.set(k, v)` segment. -/
def seg (c : Prop) [Decidable c] (k v : String) : List (String × String) :=
  if c then [(k, v)] else []

/-- `syncToUrl`: the fragment parameter list, in `params.set` order. -/
def syncToUrl (allJournals allSubfields : List String) (s : Snapshot) :
    List (String × String) :=
  seg (jsTrim s.filters.globalSearch ≠ "") "q" (jsTrim s.filters.globalSearch)
  ++ seg (jsTrim s.filters.titleFilter ≠ "") "title" (jsTrim s.filters.titleFilter)
  ++ seg (jsTrim s.filters.authorFilter ≠ "") "author" (jsTrim s.filters.authorFilter)
  ++ seg (jsTrim s.filters.reviewerFilter ≠ "") "reviewer" (jsTrim s.filters.reviewerFilter)
  ++ seg (0 < s.filters.selectedSubfields.length ∧
          s.filters.selectedSubfields.length < allSubfields.length)
       "subfield" (jsJoin "," s.filters.selectedSubfields)
  ++ seg (0 < s.filters.selectedJournals.length ∧
          s.filters.selectedJournals.length < allJournals.length)
       "journals" (jsJoin "," s.filters.selectedJournals)
  ++ seg (s.filters.yearFrom ≠ "" ∨ s.filters.yearTo ≠ "")
       "year" (s.filters.yearFrom ++ "-" ++ s.filters.yearTo)
  ++ seg (s.filters.accessFilter ≠ "") "access" s.filters.accessFilter
  ++ seg (s.filters.typeFilter ≠ "") "type" s.filters.typeFilter
  ++ seg (¬(s.sortKey = "date" ∧ s.sortDir = "desc"))
       "sort" (s.sortKey ++ "-" ++ s.sortDir)
  ++ seg (1 < s.page) "page" (jsIntToString s.page)

/-- The fragment keys `readFromUrl` recognises. -/
def recognizedKeys : List String :=
  ["q", "title", "author", "reviewer", "subfield", "journals", "year",
   "access", "type", "sort", "page"]

/-- `readFromUrl`: overlay a fragment onto the current state.  An empty
fragment returns unchanged (`if (!hash) return`); otherwise each recognised
key, when present, overwrites its control or state field. -/
def readFromUrl (allJournals allSubfields : List String) (prev : Snapshot)
    (ps : List (String × String)) : Snapshot :=
  if ps.isEmpty then prev else
  { filters :=
      { globalSearch := (assocGet ps "q").getD prev.filters.globalSearch,
        titleFilter := (assocGet ps "title").getD prev.filters.titleFilter,
        authorFilter := (assocGet ps "author").getD prev.filters.authorFilter,
        reviewerFilter := (assocGet ps "reviewer").getD prev.filters.reviewerFilter,
        yearFrom := (assocGet ps "year").elim prev.filters.yearFrom (fun v =>
          if (jsSplit v '-').getD 0 "" ≠ "" then (jsSplit v '-').getD 0 ""
          else prev.filters.yearFrom),
        yearTo := (assocGet ps "year").elim prev.filters.yearTo (fun v =>
          if (jsSplit v '-').getD 1 "" ≠ "" then (jsSplit v '-').getD 1 ""
          else prev.filters.yearTo),
        accessFilter := (assocGet ps "access").getD prev.filters.accessFilter,
        typeFilter := (assocGet ps "type").getD prev.filters.typeFilter,
        selectedJournals := (assocGet ps "journals").elim prev.filters.selectedJournals
          (fun v => jsSetOfList ((jsSplit v ',').filter (fun n => allJournals.contains n))),
        selectedSubfields := (assocGet ps "subfield").elim prev.filters.selectedSubfields
          (fun v => jsSetOfList ((jsSplit v ',').filter (fun c => allSubfields.contains c))) },
    page := (assocGet ps "page").elim prev.page (fun v =>
      (jsParseInt v).elim 1 (fun n => if n = 0 then 1 else n)),
    perPage := prev.perPage,
    sortKey := (assocGet ps "sort").elim prev.sortKey (fun v =>
      if (jsSplit v '-').length = 2 then (jsSplit v '-').getD 0 "" else prev.sortKey),
    sortDir := (assocGet ps "sort").elim prev.sortDir (fun v =>
      if (jsSplit v '-').length = 2 then (jsSplit v '-').getD 1 "" else prev.sortDir),
    expandedIdx := prev.expandedIdx }

/-! ## Event handlers -/

/-- The page state visible from outside: the snapshot plus the URL fragment
last written by `history.replaceState`. -/
structure AppState where
  snap : Snapshot
  url : List (String × String)
deriving Repr

/-- The `th[data-sort]` click handler on the state object. -/
def headerClick (s : Snapshot) (key : String) : Snapshot :=
  let s' :=
    if s.sortKey = key then
      { s with sortDir := if s.sortDir = "asc" then "desc" else "asc" }
    else
      { s with sortKey := key, sortDir := if key = "date" then "desc" else "asc" }
  { s' with page := 1 }

/-- A header click: sort update, `render()`, `syncToUrl()`. -/
def headerClickEv (ctx : Ctx) (st : AppState) (key : String) : AppState :=
  let s := update ctx (headerClick st.snap key)
  { snap := s, url := syncToUrl ctx.allJournals ctx.allSubfields s }

/-- Any filter-control change: new filter values, `state.page = 1`,
`update()`, `syncToUrl()`. -/
def filterChangeEv (ctx : Ctx) (st : AppState) (fv : Filters) : AppState :=
  let s := update ctx { st.snap with filters := fv, page := 1 }
  { snap := s, url := syncToUrl ctx.allJournals ctx.allSubfields s }

/-- A `review-row` click: toggle the expanded index and re-render.  No URL
write happens in this handler. -/
def rowClickEv (ctx : Ctx) (st : AppState) (idx : Int) : AppState :=
  let s := { st.snap with
    expandedIdx := if st.snap.expandedIdx = some idx then none else some idx }
  { st with snap := update ctx s }

/-- `clearFilters()` on the snapshot: reset every control, both facets to
full, page to 1, expansion to none, then `update()`. -/
def clearFiltersSnap (ctx : Ctx) (s : Snapshot) : Snapshot :=
  update ctx
    { s with
      filters :=
        { globalSearch := "", titleFilter := "", authorFilter := "",
          reviewerFilter := "", yearFrom := "", yearTo := "",
          accessFilter := "", typeFilter := "",
          selectedJournals := ctx.allJournals,
          selectedSubfields := ctx.allSubfields },
      page := 1,
      expandedIdx := none }

/-- The clear-filters button: `clearFilters(); syncToUrl();`. -/
def clearFiltersEv (ctx : Ctx) (st : AppState) : AppState :=
  let s := clearFiltersSnap ctx st.snap
  { snap := s, url := syncToUrl ctx.allJournals ctx.allSubfields s }

/-- A `name-link` click: clear filters, then either pin the journal facet to
the clicked value or put the value into the global search, reset sort to
date-descending, page 1, `update()`, `syncToUrl()`. -/
def nameLinkEv (ctx : Ctx) (st : AppState) (ty value : String) : AppState :=
  let s1 := clearFiltersSnap ctx st.snap
  let f2 :=
    if ty = "journal" then { s1.filters with selectedJournals := [value] }
    else { s1.filters with globalSearch := value }
  let s3 := update ctx
    { s1 with filters := f2, sortKey := "date", sortDir := "desc", page := 1 }
  { snap := s3, url := syncToUrl ctx.allJournals ctx.allSubfields s3 }

/-- A `source-card` click: clear filters, pin the journal facet, reset sort to
date-descending, page 1, `update()`, `syncToUrl()`. -/
def sourceCardEv (ctx : Ctx) (st : AppState) (journal : String) : AppState :=
  let s1 := clearFiltersSnap ctx st.snap
  let s2 := { s1 with filters := { s1.filters with selectedJournals := [journal] } }
  let s3 := update ctx { s2 with sortKey := "date", sortDir := "desc", page := 1 }
  { snap := s3, url := syncToUrl ctx.allJournals ctx.allSubfields s3 }

/-! ## Concrete fixtures used by witnesses and counterexamples -/

/-- A representative open-access review entry. -/
def entA : ReviewEntry :=
  { title := "Leviathan", author := "Hobbes", reviewer := "Rev",
    journal := "A", date := "2012-05-01", access := "open" }

/-- A second entry in another journal, restricted access. -/
def entB : ReviewEntry :=
  { title := "Meditations", author := "Descartes", reviewer := "Rho",
    journal := "B", date := "2009-01-01", access := "restricted",
    subfield := some "ethics" }

/-- A two-journal, two-subfield page context. -/
def ctx2 : Ctx :=
  { allReviews := [entA, entB], allJournals := ["A", "B"],
    allSubfields := ["ethics", "legal"] }

/-! ## C5 — sort comparator shape -/

/-- **C5** For every pair of entries and every sort key, the comparator
compares the string form of the keyed field (missing value as `""`) after
case folding through the locale comparison `lc`, and the descending direction
exactly negates the ascending comparator. -/
theorem c5_sort_comparator (lc : String → String → Int) (key : String)
    (a b : ReviewEntry) :
    sortComparator lc key "desc" a b = -(sortComparator lc key "asc" a b) ∧
    ∀ dir : String,
      sortComparator lc key dir a b =
        (if dir = "asc" then (1 : Int) else -1) *
          lc (jsToLower ((sortField a key).getD ""))
            (jsToLower ((sortField b key).getD "")) := by
  constructor
  · simp [sortComparator]
  · intro dir; rfl

/-! ## C4 — sort-key toggling and persistence -/

/-- **C4** Clicking the current sort key toggles the direction; clicking a
different key installs it with direction descending for `"date"` and
ascending otherwise; a filter change never touches the sort key or
direction. -/
theorem c4_sort_toggle (ctx : Ctx) (st : AppState) (fv : Filters)
    (s : Snapshot) (key : String) :
    (s.sortKey = key →
      (headerClick s key).sortKey = s.sortKey ∧
      (s.sortDir = "asc" → (headerClick s key).sortDir = "desc") ∧
      (s.sortDir = "desc" → (headerClick s key).sortDir = "asc")) ∧
    (s.sortKey ≠ key →
      (headerClick s key).sortKey = key ∧
      (headerClick s key).sortDir = (if key = "date" then "desc" else "asc")) ∧
    (filterChangeEv ctx st fv).snap.sortKey = st.snap.sortKey ∧
    (filterChangeEv ctx st fv).snap.sortDir = st.snap.sortDir := by
  refine ⟨?_, ?_, rfl, rfl⟩
  · intro h
    refine ⟨by simp [headerClick, h], ?_, ?_⟩
    · intro hd; simp [headerClick, h, hd]
    · intro hd; simp [headerClick, h, hd]
  · intro h
    exact ⟨by simp [headerClick, h], by simp [headerClick, h]⟩

/-- Witness for C4 at concrete inputs: toggling on the current key `"date"`
flips descending to ascending, and clicking `"title"` switches to
title-ascending. -/
theorem c4_sort_toggle_witness :
    (headerClick (defaultSnapshot ["A"] []) "date").sortDir = "asc" ∧
    (headerClick (defaultSnapshot ["A"] []) "title").sortKey = "title" ∧
    (headerClick (defaultSnapshot ["A"] []) "title").sortDir = "asc" := by
  have h := c4_sort_toggle ctx2 ⟨defaultSnapshot ["A"] [], []⟩ {}
    (defaultSnapshot ["A"] []) "date"
  have h2 := c4_sort_toggle ctx2 ⟨defaultSnapshot ["A"] [], []⟩ {}
    (defaultSnapshot ["A"] []) "title"
  refine ⟨(h.1 rfl).2.2 rfl, (h2.2.1 (by decide)).1, ?_⟩
  have := (h2.2.1 (by decide)).2
  simpa using this

/-! ## C9 — expansion state is transient -/

/-- **C9** No operation writes expansion state into the URL: a row click
leaves the URL untouched and the serialized fragment does not depend on the
expanded index; clearing filters, a name-link click and a source-card click
all reset the expanded index to none. -/
theorem c9_expansion_transient (ctx : Ctx) (st : AppState) (idx : Int)
    (s : Snapshot) (i : Option Int) (ty value journal : String) :
    (rowClickEv ctx st idx).url = st.url ∧
    syncToUrl ctx.allJournals ctx.allSubfields { s with expandedIdx := i } =
      syncToUrl ctx.allJournals ctx.allSubfields s ∧
    (clearFiltersEv ctx st).snap.expandedIdx = none ∧
    (nameLinkEv ctx st ty value).snap.expandedIdx = none ∧
    (sourceCardEv ctx st journal).snap.expandedIdx = none :=
  ⟨rfl, rfl, rfl, rfl, rfl⟩

/-! ## C2 — pagination math and the page range -/

/-- The claim as stated is false: a fragment `page=-5` restores page `-5`,
and the render clamp (which only clamps downward) leaves it below 1. -/
theorem c2_page_clamp_cex :
    (update ctx2 (readFromUrl ["A", "B"] ["ethics", "legal"]
        (defaultSnapshot ["A", "B"] ["ethics", "legal"]) [("page", "-5")])).page
      = -5 ∧
    ¬(1 ≤ (update ctx2 (readFromUrl ["A", "B"] ["ethics", "legal"]
        (defaultSnapshot ["A", "B"] ["ethics", "legal"]) [("page", "-5")])).page) := by
  constructor
  · rfl
  · decide

/-- **C2 (amended)** After a render, `totalPages` is `max 1 ⌈count/perPage⌉`
and the page never exceeds `totalPages`; it is at least 1 provided it was at
least 1 before the render.  (All UI interactions set a page of at least 1,
but a page below 1 restored from a hand-written URL fragment is kept: the
clamp only clamps downward.) -/
theorem c2_page_clamp_amended (count perPage : Nat) (page : Int)
    (hs : 1 ≤ perPage) (hp : 1 ≤ page) :
    totalPagesOf count perPage = max 1 (count ⌈/⌉ perPage) ∧
    1 ≤ renderClampPage page count perPage ∧
    renderClampPage page count perPage ≤ (totalPagesOf count perPage : Int) := by
  refine ⟨rfl, ?_, ?_⟩
  · unfold renderClampPage
    split
    · have h1 : 1 ≤ totalPagesOf count perPage := le_max_left 1 _
      exact_mod_cast h1
    · exact hp
  · unfold renderClampPage
    split
    · exact le_refl _
    · omega

/-- Witness for C2 at concrete inputs: 60 filtered rows, page size 25,
current page 3. -/
theorem c2_page_clamp_amended_witness :
    ((1 : Nat) ≤ 25 ∧ (1 : Int) ≤ 3) ∧
    (totalPagesOf 60 25 = max 1 (60 ⌈/⌉ 25) ∧
     1 ≤ renderClampPage 3 60 25 ∧
     renderClampPage 3 60 25 ≤ (totalPagesOf 60 25 : Int)) :=
  ⟨⟨by decide, by decide⟩, c2_page_clamp_amended 60 25 3 (by decide) (by decide)⟩

/-! ## C3 — the year-range filter -/

/-- The entry's year: `parseInt` of the first four characters of `date`. -/
def entryYear (r : ReviewEntry) : Option Int :=
  jsParseInt (String.mk (r.date.data.take 4))

/-- **C3** The year conjunct passes exactly as specified: with "set" being a
bound that parses to a usable (truthy) value, an entry with an unparseable
year is excluded whenever a bound is set, and otherwise passes iff its year
is within the set bounds.  (A bound such as `"0"` or an unparseable bound is
falsy in the code and therefore not "set": section 7 of the specification
has parse failures degrade to "filter not applied".) -/
theorem c3_year_filter (r : ReviewEntry) (yf yt : String) :
    yearFacetPass yf yt r = true ↔
      ((truthyOI (yearBound yf) = true ∨ truthyOI (yearBound yt) = true) →
        ∃ y, entryYear r = some y ∧
          (truthyOI (yearBound yf) = true → (yearBound yf).getD 0 ≤ y) ∧
          (truthyOI (yearBound yt) = true → y ≤ (yearBound yt).getD 0)) := by
  unfold yearFacetPass entryYear
  by_cases h1 : truthyOI (yearBound yf) <;> by_cases h2 : truthyOI (yearBound yt) <;>
    simp only [h1, h2, Bool.true_or, Bool.or_true, Bool.or_false, Bool.false_or,
      if_true, if_false] <;>
    first
      | (cases hy : jsParseInt (String.mk (r.date.data.take 4)) <;>
          simp [hy, h1, h2] <;> omega)
      | simp [h1, h2]

/-! ## C10 — entries without subfields under a strict subfield selection -/

/-- A duplicate-free list contained in another list missing one of its
members is strictly shorter. -/
theorem length_lt_of_nodup_ssubset {sel all : List String} {y : String}
    (hnd : sel.Nodup) (hsub : ∀ x ∈ sel, x ∈ all)
    (hy : y ∈ all) (hyn : y ∉ sel) : sel.length < all.length := by
  have hcard : sel.toFinset.card < all.toFinset.card := by
    apply Finset.card_lt_card
    constructor
    · intro x hx
      exact List.mem_toFinset.mpr (hsub x (List.mem_toFinset.mp hx))
    · intro hback
      exact hyn (List.mem_toFinset.mp (hback (List.mem_toFinset.mpr hy)))
  calc sel.length = sel.toFinset.card := (List.toFinset_card_of_nodup hnd).symm
    _ < all.toFinset.card := hcard
    _ ≤ all.length := List.toFinset_card_le all

/-- **C10** An entry with neither `subfield` nor `subfield2` fails the
subfield facet under every strict subset selection (witnessed by a missing
value `y`), and is therefore excluded from the filtered results. -/
theorem c10_subfield_missing_excluded (allReviews : List ReviewEntry)
    (allJ allS selS : List String) (f : Filters) (r : ReviewEntry) (y : String)
    (h1 : r.subfield = none) (h2 : r.subfield2 = none)
    (hnd : selS.Nodup) (hsub : ∀ x ∈ selS, x ∈ allS)
    (hy : y ∈ allS) (hyn : y ∉ selS) :
    subfieldFacetPass selS allS r = false ∧
    r ∉ applyFilters allReviews allJ allS { f with selectedSubfields := selS } := by
  have hlt : selS.length < allS.length :=
    length_lt_of_nodup_ssubset hnd hsub hy hyn
  have hfp : subfieldFacetPass selS allS r = false := by
    simp [subfieldFacetPass, hlt, h1, h2, optHas]
  refine ⟨hfp, ?_⟩
  intro hmem
  have hpass := (List.mem_filter.mp hmem).2
  simp [entryPasses, hfp] at hpass

/-- Witness for C10: the entry `entA` (no subfields) is dropped as soon as
the selection omits `"ethics"`. -/
theorem c10_subfield_missing_excluded_witness :
    (entA.subfield = none ∧ entA.subfield2 = none ∧
     (["legal"] : List String).Nodup ∧ (∀ x ∈ (["legal"] : List String), x ∈ ["ethics", "legal"]) ∧
     "ethics" ∈ ["ethics", "legal"] ∧ "ethics" ∉ (["legal"] : List String)) ∧
    (subfieldFacetPass ["legal"] ["ethics", "legal"] entA = false ∧
     entA ∉ applyFilters [entA, entB] ["A", "B"] ["ethics", "legal"]
       { selectedJournals := ["A", "B"], selectedSubfields := ["legal"] }) :=
  ⟨⟨by decide, by decide, by decide, by decide, by decide, by decide⟩,
   c10_subfield_missing_excluded [entA, entB] ["A", "B"] ["ethics", "legal"]
     ["legal"] { selectedJournals := ["A", "B"] } entA "ethics"
     (by decide) (by decide) (by decide) (by decide) (by decide) (by decide)⟩

/-! ## C6 — checking every box is select-all -/

/-- Checking each checkbox of `vals` in order, starting from selection
`start`: each `change` handler runs `set.add(cb.value)`. -/
def checkEachBox (start vals : List String) : List String :=
  vals.foldl jsSetAdd start

theorem mem_jsSetAdd {s : List String} {v x : String} :
    x ∈ jsSetAdd s v ↔ x ∈ s ∨ x = v := by
  unfold jsSetAdd
  split
  · next h => simp_all [List.contains_iff_exists_mem_beq]
    
  · simp

theorem nodup_jsSetAdd {s : List String} {v : String} (h : s.Nodup) :
    (jsSetAdd s v).Nodup := by
  unfold jsSetAdd
  split
  · exact h
  · next hc =>
    simp only [List.nodup_append, List.nodup_cons]
    refine ⟨h, by simp, ?_⟩
    intro x hx hx'
    simp at hx'
    subst hx'
    exact absurd (by simpa using hx) (by simpa using hc)

theorem mem_checkEachBox {start vals : List String} {x : String} :
    x ∈ checkEachBox start vals ↔ x ∈ start ∨ x ∈ vals := by
  induction vals generalizing start with
  | nil => simp [checkEachBox]
  | cons v vs ih =>
    simp only [checkEachBox, List.foldl_cons] at *
    rw [ih, mem_jsSetAdd]
    constructor
    · rintro (⟨h | h⟩ | h) <;> simp_all
    · rintro (h | h)
      · exact Or.inl (Or.inl h)
      · rcases List.mem_cons.mp h with h | h
        · exact Or.inl (Or.inr h)
        · exact Or.inr h

theorem nodup_checkEachBox {start vals : List String} (h : start.Nodup) :
    (checkEachBox start vals).Nodup := by
  induction vals generalizing start with
  | nil => exact h
  | cons v vs ih => exact ih (nodup_jsSetAdd h)

/-- Checking every box of a duplicate-free full list, starting from any
subset, yields a selection of the full length. -/
theorem length_checkEachBox {start all : List String}
    (hall : all.Nodup) (hs : ∀ x ∈ start, x ∈ all) (hn : start.Nodup) :
    (checkEachBox start all).length = all.length := by
  apply List.Perm.length_eq
  rw [List.perm_ext_iff_of_nodup (nodup_checkEachBox hn) hall]
  intro a
  rw [mem_checkEachBox]
  constructor
  · rintro (h | h)
    · exact hs a h
    · exact h
  · exact Or.inr

/-- The journal facet is a no-op once the selection reaches full length. -/
theorem journalFacetPass_full {sel allJ : List String}
    (h : sel.length = allJ.length) :
    ∀ r, journalFacetPass sel allJ r = true := by
  intro r
  simp [journalFacetPass, h]

/-- The subfield facet is a no-op once the selection reaches full length. -/
theorem subfieldFacetPass_full {sel allS : List String}
    (h : sel.length = allS.length) :
    ∀ r, subfieldFacetPass sel allS r = true := by
  intro r
  simp [subfieldFacetPass, h]

/-- **C6** Checking every journal (resp. subfield) box one by one filters
exactly like select-all: both make the facet pass every entry, just as a
selection equal to the full distinct-value list does. -/
theorem c6_select_all_equiv (allReviews : List ReviewEntry)
    (allJ allS startJ startS : List String) (f : Filters) (r : ReviewEntry)
    (hJall : allJ.Nodup) (hSall : allS.Nodup)
    (hJs : ∀ x ∈ startJ, x ∈ allJ) (hJn : startJ.Nodup)
    (hSs : ∀ x ∈ startS, x ∈ allS) (hSn : startS.Nodup) :
    applyFilters allReviews allJ allS
        { f with selectedJournals := checkEachBox startJ allJ } =
      applyFilters allReviews allJ allS { f with selectedJournals := allJ } ∧
    journalFacetPass (checkEachBox startJ allJ) allJ r = true ∧
    journalFacetPass allJ allJ r = true ∧
    applyFilters allReviews allJ allS
        { f with selectedSubfields := checkEachBox startS allS } =
      applyFilters allReviews allJ allS { f with selectedSubfields := allS } ∧
    subfieldFacetPass (checkEachBox startS allS) allS r = true ∧
    subfieldFacetPass allS allS r = true := by
  have hJlen : (checkEachBox startJ allJ).length = allJ.length :=
    length_checkEachBox hJall hJs hJn
  have hSlen : (checkEachBox startS allS).length = allS.length :=
    length_checkEachBox hSall hSs hSn
  have hJ1 := @journalFacetPass_full (checkEachBox startJ allJ) allJ hJlen
  have hJ2 := @journalFacetPass_full allJ allJ rfl
  have hS1 := @subfieldFacetPass_full (checkEachBox startS allS) allS hSlen
  have hS2 := @subfieldFacetPass_full allS allS rfl
  refine ⟨?_, hJ1 r, hJ2 r, ?_, hS1 r, hS2 r⟩
  · apply List.filter_congr
    intro a _
    simp [entryPasses, hJ1, hJ2]
  · apply List.filter_congr
    intro a _
    simp [entryPasses, hS1, hS2]

/-- Witness for C6: checking `"A"` then `"B"` starting from the selection
`["B"]` behaves exactly like the full selection `["A", "B"]`. -/
theorem c6_select_all_equiv_witness :
    ((["A", "B"] : List String).Nodup ∧ (["ethics", "legal"] : List String).Nodup ∧
     (∀ x ∈ (["B"] : List String), x ∈ ["A", "B"]) ∧ (["B"] : List String).Nodup ∧
     (∀ x ∈ (["legal"] : List String), x ∈ ["ethics", "legal"]) ∧
     (["legal"] : List String).Nodup) ∧
    (applyFilters [entA, entB] ["A", "B"] ["ethics", "legal"]
        { selectedJournals := checkEachBox ["B"] ["A", "B"],
          selectedSubfields := ["ethics", "legal"] } =
      applyFilters [entA, entB] ["A", "B"] ["ethics", "legal"]
        { selectedJournals := ["A", "B"], selectedSubfields := ["ethics", "legal"] } ∧
     journalFacetPass (checkEachBox ["B"] ["A", "B"]) ["A", "B"] entA = true) := by
  have h := c6_select_all_equiv [entA, entB] ["A", "B"] ["ethics", "legal"]
    ["B"] ["legal"]
    { selectedJournals := ["A", "B"], selectedSubfields := ["ethics", "legal"] } entA
    (by decide) (by decide) (by decide) (by decide) (by decide) (by decide)
  exact ⟨⟨by decide, by decide, by decide, by decide, by decide, by decide⟩,
    h.1, h.2.1⟩

/-! ## C7 — the pagination page window -/

theorem intRange_eq_nil {a b : Int} (h : b < a) : intRange a b = [] := by
  unfold intRange
  have h0 : (b + 1 - a).toNat = 0 := by omega
  rw [h0]
  rfl

theorem intRange_head {a b : Int} (h : a ≤ b) :
    (intRange a b).head? = some a := by
  unfold intRange
  have hn : (b + 1 - a).toNat = (b - a).toNat + 1 := by omega
  rw [hn, List.range_succ_eq_map]
  simp

theorem intRange_getLast {a b : Int} (h : a ≤ b) :
    (intRange a b).getLast? = some b := by
  unfold intRange
  have hn : (b + 1 - a).toNat = (b - a).toNat + 1 := by omega
  rw [hn, List.range_succ, List.map_append]
  simp only [List.map_cons, List.map_nil]
  rw [List.getLast?_concat]
  have hb : a + ((b - a).toNat : Int) = b := by omega
  rw [hb]

/-- The claim as stated is false at `totalPages = 1`: the code suppresses the
pagination control entirely, while the described window would still contain
page 1. -/
theorem c7_page_window_cex :
    pageWindow 1 1 = [] ∧ claimWindow 1 1 = [PageItem.num 1] ∧
    pageWindow 1 1 ≠ claimWindow 1 1 := by
  refine ⟨rfl, ?_, ?_⟩ <;> simp [pageWindow, claimWindow, intRange]

/-- **C7 (amended)** For every `totalPages ≥ 2` and current page in
`[1, totalPages]`, the rendered window is exactly: page 1; the contiguous
range `[p-1, p+1] ∩ [2, totalPages-1]`; page `totalPages`; and one ellipsis
on a side exactly when the shown pages leave a gap on that side.  (At
`totalPages = 1` the control is suppressed and no window is rendered.) -/
theorem c7_page_window_amended (tp p : Int) (h2 : 2 ≤ tp) (h1 : 1 ≤ p)
    (hp : p ≤ tp) :
    pageWindow tp p = claimWindow tp p := by
  have hnle : ¬ tp ≤ 1 := by omega
  unfold pageWindow claimWindow
  by_cases h3 : tp = 2
  · subst h3
    have hmid : intRange (max 2 (p - 1)) (min (2 - 1) (p + 1)) = [] :=
      intRange_eq_nil (by omega)
    rw [hmid]
    have e1 := if_congr (show p > 3 ↔ ((([] : List Int).head?).getD 2 > 2) by
        simp only [List.head?_nil, Option.getD_none]; omega)
      (rfl : [PageItem.dots] = [PageItem.dots]) (rfl : ([] : List PageItem) = [])
    have e2 := if_congr (show p < 2 - 2 ↔ ((([] : List Int).getLast?).getD 1 < 2 - 1) by
        simp only [List.getLast?_nil, Option.getD_none]; omega)
      (rfl : [PageItem.dots] = [PageItem.dots]) (rfl : ([] : List PageItem) = [])
    have e3 := if_congr (show (2 : Int) > 1 ↔ (2 : Int) ≠ 1 by omega)
      (rfl : [PageItem.num 2] = [PageItem.num 2]) (rfl : ([] : List PageItem) = [])
    simp only [hnle, if_false, e1, e2, e3]
  · have hab : max 2 (p - 1) ≤ min (tp - 1) (p + 1) := by omega
    have hhead := intRange_head hab
    have hlast := intRange_getLast hab
    have e1 := if_congr
      (show p > 3 ↔ (((intRange (max 2 (p - 1)) (min (tp - 1) (p + 1))).head?).getD tp > 2) by
        rw [hhead]; simp only [Option.getD_some]; omega)
      (rfl : [PageItem.dots] = [PageItem.dots]) (rfl : ([] : List PageItem) = [])
    have e2 := if_congr
      (show p < tp - 2 ↔
          (((intRange (max 2 (p - 1)) (min (tp - 1) (p + 1))).getLast?).getD 1 < tp - 1) by
        rw [hlast]; simp only [Option.getD_some]; omega)
      (rfl : [PageItem.dots] = [PageItem.dots]) (rfl : ([] : List PageItem) = [])
    have e3 := if_congr (show tp > 1 ↔ tp ≠ 1 by omega)
      (rfl : [PageItem.num tp] = [PageItem.num tp]) (rfl : ([] : List PageItem) = [])
    simp only [hnle, if_false, e1, e2, e3]

/-- Witness for C7 at `totalPages = 10`, `p = 5`. -/
theorem c7_page_window_amended_witness :
    ((2 : Int) ≤ 10 ∧ (1 : Int) ≤ 5 ∧ (5 : Int) ≤ 10) ∧
    pageWindow 10 5 = claimWindow 10 5 :=
  ⟨⟨by decide, by decide, by decide⟩,
   c7_page_window_amended 10 5 (by decide) (by decide) (by decide)⟩

/-! ## C8 — decode robustness -/

/-- The claim as stated is false: the fragment value `page=3abc` is not an
integer, yet decoding does not fall back to the default page 1 — JavaScript
`parseInt` reads the leading digits and yields page 3. -/
theorem c8_decode_cex :
    (readFromUrl ["A"] [] (defaultSnapshot ["A"] []) [("page", "3abc")]).page = 3 ∧
    (readFromUrl ["A"] [] (defaultSnapshot ["A"] []) [("page", "3abc")]).page ≠ 1 := by
  constructor <;> decide

theorem mem_of_mem_jsSetOfList {l : List String} {x : String}
    (h : x ∈ jsSetOfList l) : x ∈ l := by
  have h2 : x ∈ checkEachBox [] l := h
  rcases mem_checkEachBox.mp h2 with h3 | h3
  · cases h3
  · exact h3

theorem assocGet_filter_keys {pred : String × String → Bool}
    (ps : List (String × String)) (k : String)
    (hk : ∀ kv : String × String, kv.1 = k → pred kv = true) :
    assocGet (ps.filter pred) k = assocGet ps k := by
  induction ps with
  | nil => rfl
  | cons kv rest ih =>
    by_cases hkv : kv.1 = k
    · have hkeep : pred kv = true := hk kv hkv
      obtain ⟨k', v⟩ := kv
      simp only [List.filter_cons, hkeep, if_true, assocGet, hkv, if_pos]
      simp only at hkv
      simp [assocGet, hkv]
    · obtain ⟨k', v⟩ := kv
      simp only at hkv
      rw [List.filter_cons]
      split
      · simp [assocGet, hkv, ih]
      · simp [assocGet, hkv, ih]

theorem assocGet_none_of_filter_nil {pred : String × String → Bool}
    {ps : List (String × String)} {k : String}
    (hnil : ps.filter pred = [])
    (hk : ∀ kv : String × String, kv.1 = k → pred kv = true) :
    assocGet ps k = none := by
  induction ps with
  | nil => rfl
  | cons kv rest ih =>
    rw [List.filter_cons] at hnil
    by_cases hkv : kv.1 = k
    · have hkeep : pred kv = true := hk kv hkv
      simp [hkeep] at hnil
    · obtain ⟨k', v⟩ := kv
      simp only at hkv
      split at hnil
      · cases hnil
      · simp [assocGet, hkv, ih hnil]

/-- **C8 (amended)** Decoding ignores unrecognized keys (dropping them from
the fragment changes nothing); restored facet names are validated against the
dataset's value lists; a sort value without exactly two dash-joined tokens is
ignored; and a page value whose `parseInt` fails — or yields the falsy 0 —
falls back to the default page 1.  (A malformed value with a leading integer,
such as `"3abc"`, is *not* a fallback case: `parseInt` reads its leading
digits.) -/
theorem c8_decode_amended (allJ allS : List String) (prev : Snapshot)
    (ps : List (String × String)) :
    readFromUrl allJ allS prev
        (ps.filter (fun kv => recognizedKeys.contains kv.1)) =
      readFromUrl allJ allS prev ps ∧
    ((assocGet ps "journals").isSome →
      ∀ x ∈ (readFromUrl allJ allS prev ps).filters.selectedJournals, x ∈ allJ) ∧
    ((assocGet ps "subfield").isSome →
      ∀ x ∈ (readFromUrl allJ allS prev ps).filters.selectedSubfields, x ∈ allS) ∧
    (∀ v, assocGet ps "sort" = some v → (jsSplit v '-').length ≠ 2 →
      (readFromUrl allJ allS prev ps).sortKey = prev.sortKey ∧
      (readFromUrl allJ allS prev ps).sortDir = prev.sortDir) ∧
    (∀ v, assocGet ps "page" = some v →
      (jsParseInt v = none ∨ jsParseInt v = some 0) →
      (readFromUrl allJ allS prev ps).page = 1) := by
  by_cases hE : ps = []
  · subst hE
    refine ⟨rfl, ?_, ?_, ?_, ?_⟩
    · intro hsome
      simp [assocGet] at hsome
    · intro hsome
      simp [assocGet] at hsome
    · intro v hv
      simp [assocGet] at hv
    · intro v hv
      simp [assocGet] at hv
  · have hne : ps.isEmpty = false := by simpa [List.isEmpty_iff] using hE
    have hrec : ∀ k : String, k ∈ recognizedKeys →
        ∀ kv : String × String, kv.1 = k →
          (fun kv : String × String => recognizedKeys.contains kv.1) kv = true := by
      intro k hkmem kv hkv
      simp only [hkv]
      simpa using hkmem
    refine ⟨?_, ?_, ?_, ?_, ?_⟩
    · by_cases hF : ps.filter (fun kv => recognizedKeys.contains kv.1) = []
      · have hn : ∀ k ∈ recognizedKeys, assocGet ps k = none := by
          intro k hk
          exact assocGet_none_of_filter_nil hF (hrec k hk)
        rw [hF]
        show prev = readFromUrl allJ allS prev ps
        rw [readFromUrl]
        rw [if_neg (by rw [hne]; decide)]
        rw [hn "subfield" (by decide), hn "journals" (by decide),
          hn "year" (by decide), hn "sort" (by decide), hn "page" (by decide),
          hn "q" (by decide), hn "title" (by decide), hn "author" (by decide),
          hn "reviewer" (by decide), hn "access" (by decide), hn "type" (by decide)]
        cases prev with
        | mk f pg pp sk sd ei => cases f; rfl
      · have hneF : (ps.filter (fun kv => recognizedKeys.contains kv.1)).isEmpty = false := by
          simpa [List.isEmpty_iff] using hF
        have hs : ∀ k ∈ recognizedKeys,
            assocGet (ps.filter (fun kv => recognizedKeys.contains kv.1)) k =
              assocGet ps k := by
          intro k hk
          exact assocGet_filter_keys ps k (hrec k hk)
        rw [readFromUrl, readFromUrl]
        rw [if_neg (by rw [hneF]; decide), if_neg (by rw [hne]; decide)]
        rw [hs "subfield" (by decide), hs "journals" (by decide),
          hs "year" (by decide), hs "sort" (by decide), hs "page" (by decide),
          hs "q" (by decide), hs "title" (by decide), hs "author" (by decide),
          hs "reviewer" (by decide), hs "access" (by decide), hs "type" (by decide)]
    · intro hsome x hx
      rcases Option.isSome_iff_exists.mp hsome with ⟨v, hv⟩
      rw [readFromUrl, if_neg (by rw [hne]; decide)] at hx
      simp only [hv] at hx
      have hx2 := mem_of_mem_jsSetOfList hx
      have hx3 := (List.mem_filter.mp hx2).2
      simpa using hx3
    · intro hsome x hx
      rcases Option.isSome_iff_exists.mp hsome with ⟨v, hv⟩
      rw [readFromUrl, if_neg (by rw [hne]; decide)] at hx
      simp only [hv] at hx
      have hx2 := mem_of_mem_jsSetOfList hx
      have hx3 := (List.mem_filter.mp hx2).2
      simpa using hx3
    · intro v hv hlen
      rw [readFromUrl, if_neg (by rw [hne]; decide)]
      constructor
      · simp only [hv, Option.elim_some]
        rw [if_neg hlen]
      · simp only [hv, Option.elim_some]
        rw [if_neg hlen]
    · intro v hv hbad
      rw [readFromUrl, if_neg (by rw [hne]; decide)]
      rcases hbad with hb | hb <;> simp [hv, hb]

/-- Witness for C8: a fragment with an out-of-dataset journal, an unknown
key, a one-token sort value and the falsy page value `0`. -/
theorem c8_decode_amended_witness :
    readFromUrl ["A"] [] (defaultSnapshot ["A"] [])
        (([("journals", "A,Z"), ("zzz", "1"), ("sort", "title"), ("page", "0")] :
            List (String × String)).filter (fun kv => recognizedKeys.contains kv.1)) =
      readFromUrl ["A"] [] (defaultSnapshot ["A"] [])
        [("journals", "A,Z"), ("zzz", "1"), ("sort", "title"), ("page", "0")] ∧
    (∀ x ∈ (readFromUrl ["A"] [] (defaultSnapshot ["A"] [])
        [("journals", "A,Z"), ("zzz", "1"), ("sort", "title"), ("page", "0")]).filters.selectedJournals,
      x ∈ ["A"]) ∧
    (readFromUrl ["A"] [] (defaultSnapshot ["A"] [])
        [("journals", "A,Z"), ("zzz", "1"), ("sort", "title"), ("page", "0")]).sortKey = "date" ∧
    (readFromUrl ["A"] [] (defaultSnapshot ["A"] [])
        [("journals", "A,Z"), ("zzz", "1"), ("sort", "title"), ("page", "0")]).page = 1 := by
  have h := c8_decode_amended ["A"] [] (defaultSnapshot ["A"] [])
    [("journals", "A,Z"), ("zzz", "1"), ("sort", "title"), ("page", "0")]
  refine ⟨h.1, h.2.1 (by decide), ?_, h.2.2.2.2 "0" (by decide) (Or.inr (by decide))⟩
  exact (h.2.2.2.1 "title" (by decide) (by decide)).1

/-! ## C1 — URL round-trip: string lemmas -/

theorem dropWhile_idem (p : Char → Bool) (l : List Char) :
    (l.dropWhile p).dropWhile p = l.dropWhile p := by
  induction l with
  | nil => rfl
  | cons a t ih =>
    by_cases h : p a
    · simp [List.dropWhile_cons, h, ih]
    · simp [List.dropWhile_cons, h]

theorem head_dropWhile_false {p : Char → Bool} {l : List Char} {a : Char}
    (h : (l.dropWhile p).head? = some a) : p a = false := by
  induction l with
  | nil => cases h
  | cons b t ih =>
    rw [List.dropWhile_cons] at h
    split at h
    · exact ih h
    · cases h
      simp_all

theorem dropWhile_eq_self_of_head {p : Char → Bool} {l : List Char}
    (h : ∀ a, l.head? = some a → p a = false) : l.dropWhile p = l := by
  cases l with
  | nil => rfl
  | cons a t =>
    rw [List.dropWhile_cons, h a rfl]
    simp

theorem getLast?_dropWhile {p : Char → Bool} {l : List Char}
    (h : l.dropWhile p ≠ []) : (l.dropWhile p).getLast? = l.getLast? := by
  conv_rhs => rw [← List.takeWhile_append_dropWhile p l]
  rw [List.getLast?_append]
  cases hg : (l.dropWhile p).getLast? with
  | none => exact absurd (List.getLast?_eq_none_iff.mp hg) h
  | some b => rfl

theorem dropWhile_jsTrimData (l : List Char) :
    (jsTrimData l).dropWhile isJsWS = jsTrimData l := by
  unfold jsTrimData
  apply dropWhile_eq_self_of_head
  intro a ha
  by_cases hnil : (l.dropWhile isJsWS).reverse.dropWhile isJsWS = []
  · rw [hnil] at ha
    cases ha
  · rw [List.head?_reverse] at ha
    rw [getLast?_dropWhile hnil, List.getLast?_reverse] at ha
    exact head_dropWhile_false ha

theorem jsTrimData_idem (l : List Char) :
    jsTrimData (jsTrimData l) = jsTrimData l := by
  rw [jsTrimData, dropWhile_jsTrimData l, jsTrimData, List.reverse_reverse,
    dropWhile_idem]

theorem jsTrim_idem (s : String) : jsTrim (jsTrim s) = jsTrim s := by
  unfold jsTrim
  exact congrArg String.mk (jsTrimData_idem s.data)

theorem isJsWS_jsCharLower (c : Char) : isJsWS (jsCharLower c) = isJsWS c := by
  unfold jsCharLower
  split
  · next h =>
    have hv : (c.toNat + 32).isValidChar := Or.inl (by omega)
    have ht : (Char.ofNat (c.toNat + 32)).toNat = c.toNat + 32 := by
      rw [Char.ofNat, dif_pos hv]
      rfl
    have h65 : 65 ≤ c.toNat := h.1
    have h90 : c.toNat ≤ 90 := h.2
    have hA : isJsWS c = false := by
      simp only [isJsWS, Bool.or_eq_false_iff, decide_eq_false_iff_not]
      omega
    have hB : isJsWS (Char.ofNat (c.toNat + 32)) = false := by
      simp only [isJsWS, ht, Bool.or_eq_false_iff, decide_eq_false_iff_not]
      omega
    rw [hA, hB]
  · rfl

theorem jsTrimData_map_lower (l : List Char) :
    jsTrimData (l.map jsCharLower) = (jsTrimData l).map jsCharLower := by
  unfold jsTrimData
  have hpf : (isJsWS ∘ jsCharLower) = isJsWS := funext isJsWS_jsCharLower
  rw [List.dropWhile_map, hpf, ← List.map_reverse, List.dropWhile_map, hpf,
    ← List.map_reverse]

theorem jsTrim_jsToLower_comm (s : String) :
    jsTrim (jsToLower s) = jsToLower (jsTrim s) := by
  unfold jsTrim jsToLower
  exact congrArg String.mk (jsTrimData_map_lower s.data)

/-- The key trim fact for the round trip: re-trimming a decoded (already
trimmed) query filters identically. -/
theorem trim_lower_trim (s : String) :
    jsTrim (jsToLower (jsTrim s)) = jsTrim (jsToLower s) := by
  rw [jsTrim_jsToLower_comm, jsTrim_idem, ← jsTrim_jsToLower_comm]

/-! ## C1 — split / join round trip -/

theorem jsSplitCL_no_sep (sep : Char) :
    ∀ (xs cur : List Char), (∀ c ∈ xs, ¬c = sep) →
      jsSplitCL sep xs cur = [cur.reverse ++ xs] := by
  intro xs
  induction xs with
  | nil => intro cur _; simp [jsSplitCL]
  | cons c t ih =>
    intro cur h
    have hc : ¬c = sep := h c (by simp)
    rw [jsSplitCL, if_neg hc, ih (c :: cur) (fun d hd => h d (by simp [hd]))]
    simp

theorem jsSplitCL_sep_split (sep : Char) :
    ∀ (xs ys cur : List Char), (∀ c ∈ xs, ¬c = sep) →
      jsSplitCL sep (xs ++ sep :: ys) cur =
        (cur.reverse ++ xs) :: jsSplitCL sep ys [] := by
  intro xs
  induction xs with
  | nil =>
    intro ys cur _
    rw [List.nil_append, jsSplitCL, if_pos rfl]
    simp
  | cons c t ih =>
    intro ys cur h
    have hc : ¬c = sep := h c (by simp)
    rw [List.cons_append, jsSplitCL, if_neg hc,
      ih ys (c :: cur) (fun d hd => h d (by simp [hd]))]
    simp

theorem foldl_append_join (sep : String) (l : List String) :
    ∀ a b : String,
      l.foldl (fun u v => u ++ sep ++ v) (a ++ b) =
        a ++ l.foldl (fun u v => u ++ sep ++ v) b := by
  induction l with
  | nil => intro a b; rfl
  | cons c cs ih =>
    intro a b
    simp only [List.foldl_cons]
    rw [show a ++ b ++ sep ++ c = a ++ (b ++ sep ++ c) by
      simp [String.append_assoc], ih]

theorem jsJoin_cons (sep : String) (x y : String) (rest : List String) :
    jsJoin sep (x :: y :: rest) = x ++ sep ++ jsJoin sep (y :: rest) := by
  show (y :: rest).foldl (fun u v => u ++ sep ++ v) x = _
  rw [List.foldl_cons]
  rw [show x ++ sep ++ y = (x ++ sep) ++ y by simp [String.append_assoc]]
  rw [foldl_append_join]
  rfl

theorem jsSplit_jsJoin (sepC : Char) (sepS : String) (hs : sepS.data = [sepC]) :
    ∀ l : List String, l ≠ [] → (∀ x ∈ l, sepC ∉ x.data) →
      jsSplit (jsJoin sepS l) sepC = l := by
  intro l
  induction l with
  | nil => intro h; cases h rfl
  | cons x xs ih =>
    intro _ hns
    cases xs with
    | nil =>
      have hx : ∀ c ∈ x.data, ¬c = sepC := by
        intro c hc hceq
        exact (hns x (by simp)) (hceq ▸ hc)
      show (jsSplitCL sepC x.data []).map String.mk = [x]
      rw [jsSplitCL_no_sep sepC x.data [] hx]
      simp
    | cons y rest =>
      rw [jsJoin_cons]
      have hx : ∀ c ∈ x.data, ¬c = sepC := by
        intro c hc hceq
        exact (hns x (by simp)) (hceq ▸ hc)
      have hdata : (x ++ sepS ++ jsJoin sepS (y :: rest)).data =
          x.data ++ sepC :: (jsJoin sepS (y :: rest)).data := by
        rw [String.data_append, String.data_append, hs]
        simp
      show ((jsSplitCL sepC (x ++ sepS ++ jsJoin sepS (y :: rest)).data []).map
        String.mk) = x :: y :: rest
      rw [hdata, jsSplitCL_sep_split sepC x.data _ [] hx]
      have htail := ih (by simp) (fun z hz => hns z (by simp [hz]))
      rw [List.map_cons]
      rw [show (jsSplitCL sepC (jsJoin sepS (y :: rest)).data []).map String.mk =
        jsSplit (jsJoin sepS (y :: rest)) sepC from rfl]
      rw [htail]
      simp

/-! ## C1 — printing and re-parsing the page number -/

theorem digitCh_toNat {d : Nat} (h : d < 10) : (digitCh d).toNat = 48 + d := by
  rw [digitCh, Char.ofNat, dif_pos (Or.inl (by omega))]
  rfl

theorem isDigitCh_digitCh {d : Nat} (h : d < 10) : isDigitCh (digitCh d) = true := by
  simp only [isDigitCh, digitCh_toNat h, Bool.and_eq_true, decide_eq_true_eq]
  omega

theorem natDigitsAux_fuel : ∀ (n : Nat) (f₁ f₂ : Nat) (acc : List Char),
    n < f₁ → n < f₂ → natDigitsAux f₁ n acc = natDigitsAux f₂ n acc := by
  intro n
  induction n using Nat.strongRecOn with
  | ind n ih =>
    intro f₁ f₂ acc h₁ h₂
    match f₁, h₁ with
    | g₁ + 1, h₁ =>
      match f₂, h₂ with
      | g₂ + 1, h₂ =>
        rw [natDigitsAux, natDigitsAux]
        split
        · rfl
        · next hge =>
          exact ih (n / 10) (by omega) g₁ g₂ _ (by omega) (by omega)

theorem natDigitsAux_append : ∀ (f n : Nat) (acc : List Char),
    natDigitsAux f n acc = natDigitsAux f n [] ++ acc := by
  intro f
  induction f with
  | zero => intro n acc; rfl
  | succ g ih =>
    intro n acc
    rw [natDigitsAux, natDigitsAux]
    split
    · rfl
    · rw [ih (n / 10) (digitCh (n % 10) :: acc), ih (n / 10) [digitCh (n % 10)]]
      simp

theorem natDigits_step {n : Nat} (h : 10 ≤ n) :
    natDigits n = natDigits (n / 10) ++ [digitCh (n % 10)] := by
  rw [natDigits, natDigitsAux, if_neg (by omega)]
  rw [natDigitsAux_fuel (n / 10) n (n / 10 + 1) _ (by omega) (by omega)]
  rw [natDigitsAux_append]
  rfl

theorem natDigits_small {n : Nat} (h : n < 10) : natDigits n = [digitCh n] := by
  rw [natDigits, natDigitsAux, if_pos h]

theorem natDigits_ne_nil (n : Nat) : natDigits n ≠ [] := by
  by_cases h : n < 10
  · rw [natDigits_small h]
    simp
  · rw [natDigits_step (by omega)]
    simp

theorem natDigits_all_digit (n : Nat) :
    ∀ c ∈ natDigits n, isDigitCh c = true := by
  induction n using Nat.strongRecOn with
  | ind n ih =>
    by_cases h : n < 10
    · rw [natDigits_small h]
      intro c hc
      rcases List.mem_singleton.mp hc with rfl
      exact isDigitCh_digitCh h
    · rw [natDigits_step (by omega)]
      intro c hc
      rcases List.mem_append.mp hc with hc | hc
      · exact ih (n / 10) (by omega) c hc
      · rcases List.mem_singleton.mp hc with rfl
        exact isDigitCh_digitCh (by omega)

theorem digitsToNat_concat (ds : List Char) (c : Char) :
    digitsToNat (ds ++ [c]) = digitsToNat ds * 10 + (c.toNat - 48) := by
  simp [digitsToNat, List.foldl_append]

theorem digitsToNat_natDigits (n : Nat) : digitsToNat (natDigits n) = n := by
  induction n using Nat.strongRecOn with
  | ind n ih =>
    by_cases h : n < 10
    · rw [natDigits_small h]
      simp [digitsToNat, digitCh_toNat h]
    · rw [natDigits_step (by omega), digitsToNat_concat,
        ih (n / 10) (by omega), digitCh_toNat (show n % 10 < 10 by omega)]
      omega

theorem isJsWS_of_digit {c : Char} (h : isDigitCh c = true) : isJsWS c = false := by
  simp only [isDigitCh, Bool.and_eq_true, decide_eq_true_eq] at h
  simp only [isJsWS, Bool.or_eq_false_iff, decide_eq_false_iff_not]
  omega

theorem takeWhile_eq_self {p : Char → Bool} {l : List Char}
    (h : ∀ c ∈ l, p c = true) : l.takeWhile p = l := by
  induction l with
  | nil => rfl
  | cons a t ih =>
    rw [List.takeWhile_cons, h a (by simp), ih (fun c hc => h c (by simp [hc]))]
    simp

theorem jsParseIntCL_natDigits (n : Nat) :
    jsParseIntCL (natDigits n) = some (n : Int) := by
  have hdig := natDigits_all_digit n
  obtain ⟨c, t, hnd⟩ : ∃ c t, natDigits n = c :: t := by
    cases hcase : natDigits n with
    | nil => exact absurd hcase (natDigits_ne_nil n)
    | cons c t => exact ⟨c, t, rfl⟩
  have hcdig : isDigitCh c = true := hdig c (by rw [hnd]; simp)
  have hdrop : (natDigits n).dropWhile isJsWS = natDigits n := by
    apply dropWhile_eq_self_of_head
    intro a ha
    rw [hnd] at ha
    cases ha
    exact isJsWS_of_digit hcdig
  have hparse : parseDigits (natDigits n) = some n := by
    rw [parseDigits, takeWhile_eq_self hdig]
    rw [if_neg (by simpa [List.isEmpty_iff] using natDigits_ne_nil n)]
    rw [digitsToNat_natDigits]
  have hc1 : c ≠ '-' := by
    intro heq
    subst heq
    simp [isDigitCh] at hcdig
  have hc2 : c ≠ '+' := by
    intro heq
    subst heq
    simp [isDigitCh] at hcdig
  rw [jsParseIntCL, hdrop, hnd]
  rw [hnd] at hparse
  split
  · next heq =>
    injection heq with h1 _
    exact absurd h1 hc1
  · next heq =>
    injection heq with h1 _
    exact absurd h1 hc2
  · rw [hparse]
    rfl

theorem jsParseInt_jsIntToString {n : Int} (h : 1 ≤ n) :
    jsParseInt (jsIntToString n) = some n := by
  rw [jsIntToString, if_neg (by omega)]
  rw [show jsParseInt (String.mk (natDigits n.toNat)) =
    jsParseIntCL (natDigits n.toNat) from rfl]
  rw [jsParseIntCL_natDigits n.toNat]
  congr 1
  omega

/-! ## C1 — miscellaneous selection lemmas -/

theorem contains_congr {l l' : List String}
    (hm : ∀ x, x ∈ l ↔ x ∈ l') (y : String) : l.contains y = l'.contains y := by
  by_cases h : y ∈ l
  · have h2 := (hm y).mp h
    simp [h, h2]
  · have h2 : y ∉ l' := fun hy => h ((hm y).mpr hy)
    simp [h, h2]

theorem optHas_congr {l l' : List String}
    (hm : ∀ x, x ∈ l ↔ x ∈ l') (o : Option String) : optHas l o = optHas l' o := by
  cases o with
  | none => rfl
  | some v => exact contains_congr hm v

theorem nodup_subset_length {sel all : List String}
    (hnd : sel.Nodup) (hsub : ∀ x ∈ sel, x ∈ all) :
    sel.length ≤ all.length := by
  calc sel.length = sel.toFinset.card := (List.toFinset_card_of_nodup hnd).symm
    _ ≤ all.toFinset.card := by
        apply Finset.card_le_card
        intro x hx
        exact List.mem_toFinset.mpr (hsub x (List.mem_toFinset.mp hx))
    _ ≤ all.length := List.toFinset_card_le all

theorem mem_iff_of_full {sel all : List String}
    (hnd : sel.Nodup) (hall : all.Nodup) (hsub : ∀ x ∈ sel, x ∈ all)
    (hlen : sel.length = all.length) : ∀ x, x ∈ all ↔ x ∈ sel := by
  have hfs : sel.toFinset = all.toFinset := by
    apply Finset.eq_of_subset_of_card_le
    · intro x hx
      exact List.mem_toFinset.mpr (hsub x (List.mem_toFinset.mp hx))
    · rw [List.toFinset_card_of_nodup hnd, List.toFinset_card_of_nodup hall]
      omega
  intro x
  rw [← List.mem_toFinset, ← hfs, List.mem_toFinset]

theorem checkEachBox_disjoint : ∀ (l acc : List String), l.Nodup →
    (∀ x ∈ l, x ∉ acc) → checkEachBox acc l = acc ++ l := by
  intro l
  induction l with
  | nil => intro acc _ _; simp [checkEachBox]
  | cons v vs ih =>
    intro acc hnd hdisj
    have hva : v ∉ acc := hdisj v (by simp)
    have hadd : jsSetAdd acc v = acc ++ [v] := by
      rw [jsSetAdd, if_neg (by simpa using hva)]
    show checkEachBox (jsSetAdd acc v) vs = acc ++ v :: vs
    rw [hadd, ih (acc ++ [v]) (List.nodup_cons.mp hnd).2 ?_]
    · simp
    · intro x hx
      simp only [List.mem_append, List.mem_singleton]
      rintro (hxa | rfl)
      · exact hdisj x (by simp [hx]) hxa
      · exact (List.nodup_cons.mp hnd).1 hx

theorem jsSetOfList_nodup {l : List String} (h : l.Nodup) :
    jsSetOfList l = l := by
  show checkEachBox [] l = l
  rw [checkEachBox_disjoint l [] h (by simp)]
  rfl

theorem filter_contains_self {l all : List String}
    (hsub : ∀ x ∈ l, x ∈ all) :
    l.filter (fun c => all.contains c) = l :=
  List.filter_eq_self.mpr (fun a ha => by simpa using hsub a ha)

/-! ## C1 — reading each key of the generated fragment -/

theorem assocGet_seg_ne {c : Prop} [Decidable c] {k k' v : String}
    (rest : List (String × String)) (h : k' ≠ k) :
    assocGet (seg c k' v ++ rest) k = assocGet rest k := by
  unfold seg
  split
  · simp [assocGet, h]
  · simp

theorem assocGet_seg_eq {c : Prop} [Decidable c] {k v : String}
    (rest : List (String × String)) :
    assocGet (seg c k v ++ rest) k = if c then some v else assocGet rest k := by
  unfold seg
  split
  · next hc => simp [assocGet, hc]
  · next hc => simp [hc]

theorem assocGet_seg_last_ne {c : Prop} [Decidable c] {k k' v : String}
    (h : k' ≠ k) : assocGet (seg c k' v) k = none := by
  unfold seg
  split <;> simp [assocGet, h]

theorem assocGet_seg_last_eq {c : Prop} [Decidable c] {k v : String} :
    assocGet (seg c k v) k = if c then some v else none := by
  unfold seg
  split <;> simp [assocGet, *]


theorem syncToUrl_get_q (aJ aS : List String) (s : Snapshot) :
    assocGet (syncToUrl aJ aS s) "q" =
      if jsTrim s.filters.globalSearch ≠ "" then some (jsTrim s.filters.globalSearch) else none := by
  unfold syncToUrl
  simp only [List.append_assoc]
  rw [assocGet_seg_eq,
    assocGet_seg_ne _ (by decide),
    assocGet_seg_ne _ (by decide),
    assocGet_seg_ne _ (by decide),
    assocGet_seg_ne _ (by decide),
    assocGet_seg_ne _ (by decide),
    assocGet_seg_ne _ (by decide),
    assocGet_seg_ne _ (by decide),
    assocGet_seg_ne _ (by decide),
    assocGet_seg_ne _ (by decide),
    assocGet_seg_last_ne (by decide)]

theorem syncToUrl_get_title (aJ aS : List String) (s : Snapshot) :
    assocGet (syncToUrl aJ aS s) "title" =
      if jsTrim s.filters.titleFilter ≠ "" then some (jsTrim s.filters.titleFilter) else none := by
  unfold syncToUrl
  simp only [List.append_assoc]
  rw [assocGet_seg_ne _ (by decide),
    assocGet_seg_eq,
    assocGet_seg_ne _ (by decide),
    assocGet_seg_ne _ (by decide),
    assocGet_seg_ne _ (by decide),
    assocGet_seg_ne _ (by decide),
    assocGet_seg_ne _ (by decide),
    assocGet_seg_ne _ (by decide),
    assocGet_seg_ne _ (by decide),
    assocGet_seg_ne _ (by decide),
    assocGet_seg_last_ne (by decide)]

theorem syncToUrl_get_author (aJ aS : List String) (s : Snapshot) :
    assocGet (syncToUrl aJ aS s) "author" =
      if jsTrim s.filters.authorFilter ≠ "" then some (jsTrim s.filters.authorFilter) else none := by
  unfold syncToUrl
  simp only [List.append_assoc]
  rw [assocGet_seg_ne _ (by decide),
    assocGet_seg_ne _ (by decide),
    assocGet_seg_eq,
    assocGet_seg_ne _ (by decide),
    assocGet_seg_ne _ (by decide),
    assocGet_seg_ne _ (by decide),
    assocGet_seg_ne _ (by decide),
    assocGet_seg_ne _ (by decide),
    assocGet_seg_ne _ (by decide),
    assocGet_seg_ne _ (by decide),
    assocGet_seg_last_ne (by decide)]

theorem syncToUrl_get_reviewer (aJ aS : List String) (s : Snapshot) :
    assocGet (syncToUrl aJ aS s) "reviewer" =
      if jsTrim s.filters.reviewerFilter ≠ "" then some (jsTrim s.filters.reviewerFilter) else none := by
  unfold syncToUrl
  simp only [List.append_assoc]
  rw [assocGet_seg_ne _ (by decide),
    assocGet_seg_ne _ (by decide),
    assocGet_seg_ne _ (by decide),
    assocGet_seg_eq,
    assocGet_seg_ne _ (by decide),
    assocGet_seg_ne _ (by decide),
    assocGet_seg_ne _ (by decide),
    assocGet_seg_ne _ (by decide),
    assocGet_seg_ne _ (by decide),
    assocGet_seg_ne _ (by decide),
    assocGet_seg_last_ne (by decide)]

theorem syncToUrl_get_subfield (aJ aS : List String) (s : Snapshot) :
    assocGet (syncToUrl aJ aS s) "subfield" =
      if 0 < s.filters.selectedSubfields.length ∧ s.filters.selectedSubfields.length < aS.length then some (jsJoin "," s.filters.selectedSubfields) else none := by
  unfold syncToUrl
  simp only [List.append_assoc]
  rw [assocGet_seg_ne _ (by decide),
    assocGet_seg_ne _ (by decide),
    assocGet_seg_ne _ (by decide),
    assocGet_seg_ne _ (by decide),
    assocGet_seg_eq,
    assocGet_seg_ne _ (by decide),
    assocGet_seg_ne _ (by decide),
    assocGet_seg_ne _ (by decide),
    assocGet_seg_ne _ (by decide),
    assocGet_seg_ne _ (by decide),
    assocGet_seg_last_ne (by decide)]

theorem syncToUrl_get_journals (aJ aS : List String) (s : Snapshot) :
    assocGet (syncToUrl aJ aS s) "journals" =
      if 0 < s.filters.selectedJournals.length ∧ s.filters.selectedJournals.length < aJ.length then some (jsJoin "," s.filters.selectedJournals) else none := by
  unfold syncToUrl
  simp only [List.append_assoc]
  rw [assocGet_seg_ne _ (by decide),
    assocGet_seg_ne _ (by decide),
    assocGet_seg_ne _ (by decide),
    assocGet_seg_ne _ (by decide),
    assocGet_seg_ne _ (by decide),
    assocGet_seg_eq,
    assocGet_seg_ne _ (by decide),
    assocGet_seg_ne _ (by decide),
    assocGet_seg_ne _ (by decide),
    assocGet_seg_ne _ (by decide),
    assocGet_seg_last_ne (by decide)]

theorem syncToUrl_get_year (aJ aS : List String) (s : Snapshot) :
    assocGet (syncToUrl aJ aS s) "year" =
      if s.filters.yearFrom ≠ "" ∨ s.filters.yearTo ≠ "" then some (s.filters.yearFrom ++ "-" ++ s.filters.yearTo) else none := by
  unfold syncToUrl
  simp only [List.append_assoc]
  rw [assocGet_seg_ne _ (by decide),
    assocGet_seg_ne _ (by decide),
    assocGet_seg_ne _ (by decide),
    assocGet_seg_ne _ (by decide),
    assocGet_seg_ne _ (by decide),
    assocGet_seg_ne _ (by decide),
    assocGet_seg_eq,
    assocGet_seg_ne _ (by decide),
    assocGet_seg_ne _ (by decide),
    assocGet_seg_ne _ (by decide),
    assocGet_seg_last_ne (by decide)]

theorem syncToUrl_get_access (aJ aS : List String) (s : Snapshot) :
    assocGet (syncToUrl aJ aS s) "access" =
      if s.filters.accessFilter ≠ "" then some (s.filters.accessFilter) else none := by
  unfold syncToUrl
  simp only [List.append_assoc]
  rw [assocGet_seg_ne _ (by decide),
    assocGet_seg_ne _ (by decide),
    assocGet_seg_ne _ (by decide),
    assocGet_seg_ne _ (by decide),
    assocGet_seg_ne _ (by decide),
    assocGet_seg_ne _ (by decide),
    assocGet_seg_ne _ (by decide),
    assocGet_seg_eq,
    assocGet_seg_ne _ (by decide),
    assocGet_seg_ne _ (by decide),
    assocGet_seg_last_ne (by decide)]

theorem syncToUrl_get_type (aJ aS : List String) (s : Snapshot) :
    assocGet (syncToUrl aJ aS s) "type" =
      if s.filters.typeFilter ≠ "" then some (s.filters.typeFilter) else none := by
  unfold syncToUrl
  simp only [List.append_assoc]
  rw [assocGet_seg_ne _ (by decide),
    assocGet_seg_ne _ (by decide),
    assocGet_seg_ne _ (by decide),
    assocGet_seg_ne _ (by decide),
    assocGet_seg_ne _ (by decide),
    assocGet_seg_ne _ (by decide),
    assocGet_seg_ne _ (by decide),
    assocGet_seg_ne _ (by decide),
    assocGet_seg_eq,
    assocGet_seg_ne _ (by decide),
    assocGet_seg_last_ne (by decide)]

theorem syncToUrl_get_sort (aJ aS : List String) (s : Snapshot) :
    assocGet (syncToUrl aJ aS s) "sort" =
      if ¬(s.sortKey = "date" ∧ s.sortDir = "desc") then some (s.sortKey ++ "-" ++ s.sortDir) else none := by
  unfold syncToUrl
  simp only [List.append_assoc]
  rw [assocGet_seg_ne _ (by decide),
    assocGet_seg_ne _ (by decide),
    assocGet_seg_ne _ (by decide),
    assocGet_seg_ne _ (by decide),
    assocGet_seg_ne _ (by decide),
    assocGet_seg_ne _ (by decide),
    assocGet_seg_ne _ (by decide),
    assocGet_seg_ne _ (by decide),
    assocGet_seg_ne _ (by decide),
    assocGet_seg_eq,
    assocGet_seg_last_ne (by decide)]

theorem syncToUrl_get_page (aJ aS : List String) (s : Snapshot) :
    assocGet (syncToUrl aJ aS s) "page" =
      if 1 < s.page then some (jsIntToString s.page) else none := by
  unfold syncToUrl
  simp only [List.append_assoc]
  rw [assocGet_seg_ne _ (by decide),
    assocGet_seg_ne _ (by decide),
    assocGet_seg_ne _ (by decide),
    assocGet_seg_ne _ (by decide),
    assocGet_seg_ne _ (by decide),
    assocGet_seg_ne _ (by decide),
    assocGet_seg_ne _ (by decide),
    assocGet_seg_ne _ (by decide),
    assocGet_seg_ne _ (by decide),
    assocGet_seg_ne _ (by decide),
    assocGet_seg_last_eq]

/-! ## C1 — the round trip -/

theorem entryPasses_congr (allJ allS : List String) (f g : Filters)
    (hg : jsTrim (jsToLower f.globalSearch) = jsTrim (jsToLower g.globalSearch))
    (ht : jsTrim (jsToLower f.titleFilter) = jsTrim (jsToLower g.titleFilter))
    (ha : jsTrim (jsToLower f.authorFilter) = jsTrim (jsToLower g.authorFilter))
    (hr : jsTrim (jsToLower f.reviewerFilter) = jsTrim (jsToLower g.reviewerFilter))
    (hy1 : f.yearFrom = g.yearFrom) (hy2 : f.yearTo = g.yearTo)
    (hac : f.accessFilter = g.accessFilter) (hty : f.typeFilter = g.typeFilter)
    (hJm : ∀ x, x ∈ f.selectedJournals ↔ x ∈ g.selectedJournals)
    (hJl : f.selectedJournals.length = g.selectedJournals.length)
    (hSm : ∀ x, x ∈ f.selectedSubfields ↔ x ∈ g.selectedSubfields)
    (hSl : f.selectedSubfields.length = g.selectedSubfields.length) :
    ∀ r, entryPasses allJ allS f r = entryPasses allJ allS g r := by
  intro r
  have hJf : journalFacetPass f.selectedJournals allJ r =
      journalFacetPass g.selectedJournals allJ r := by
    rw [journalFacetPass, journalFacetPass, hJl, contains_congr hJm r.journal]
  have hSf : subfieldFacetPass f.selectedSubfields allS r =
      subfieldFacetPass g.selectedSubfields allS r := by
    rw [subfieldFacetPass, subfieldFacetPass, hSl, optHas_congr hSm r.subfield,
      optHas_congr hSm r.subfield2]
  rw [entryPasses, entryPasses, hg, ht, ha, hr, hy1, hy2, hac, hty, hJf, hSf]

theorem applyFilters_congr (D : List ReviewEntry) (allJ allS : List String)
    {f g : Filters} (h : ∀ r, entryPasses allJ allS f r = entryPasses allJ allS g r) :
    applyFilters D allJ allS f = applyFilters D allJ allS g :=
  List.filter_congr (fun r _ => h r)

/-- The claim as stated is false: with one journal `"A"` in the dataset and an
empty selected-journal set ("show nothing"), the state encodes to an empty
fragment, which decodes back to the default full selection — the round trip
turns "show nothing" into "show everything". -/
theorem c1_url_roundtrip_cex :
    syncToUrl ["A"] ["ethics"]
      { filters := { selectedJournals := [], selectedSubfields := ["ethics"] } } = [] ∧
    applyFilters [entA] ["A"] ["ethics"]
        (readFromUrl ["A"] ["ethics"] (defaultSnapshot ["A"] ["ethics"])
          (syncToUrl ["A"] ["ethics"]
            { filters := { selectedJournals := [], selectedSubfields := ["ethics"] } })).filters ≠
      applyFilters [entA] ["A"] ["ethics"]
        ({ filters := { selectedJournals := [], selectedSubfields := ["ethics"] } } :
          Snapshot).filters := by
  constructor
  · rfl
  · decide

theorem not_cond_of_assocGet_nil {c : Prop} [Decidable c] {k v : String}
    (h : assocGet [] k = if c then some v else none) : ¬c := by
  intro hc
  rw [if_pos hc] at h
  simp [assocGet] at h

theorem readFromUrl_globalSearch (aJ aS : List String) (prev : Snapshot)
    {ps : List (String × String)} (h : ps ≠ []) :
    (readFromUrl aJ aS prev ps).filters.globalSearch =
      (assocGet ps "q").getD prev.filters.globalSearch := by
  rw [readFromUrl, if_neg (by simpa [List.isEmpty_iff] using h)]

theorem readFromUrl_titleFilter (aJ aS : List String) (prev : Snapshot)
    {ps : List (String × String)} (h : ps ≠ []) :
    (readFromUrl aJ aS prev ps).filters.titleFilter =
      (assocGet ps "title").getD prev.filters.titleFilter := by
  rw [readFromUrl, if_neg (by simpa [List.isEmpty_iff] using h)]

theorem readFromUrl_authorFilter (aJ aS : List String) (prev : Snapshot)
    {ps : List (String × String)} (h : ps ≠ []) :
    (readFromUrl aJ aS prev ps).filters.authorFilter =
      (assocGet ps "author").getD prev.filters.authorFilter := by
  rw [readFromUrl, if_neg (by simpa [List.isEmpty_iff] using h)]

theorem readFromUrl_reviewerFilter (aJ aS : List String) (prev : Snapshot)
    {ps : List (String × String)} (h : ps ≠ []) :
    (readFromUrl aJ aS prev ps).filters.reviewerFilter =
      (assocGet ps "reviewer").getD prev.filters.reviewerFilter := by
  rw [readFromUrl, if_neg (by simpa [List.isEmpty_iff] using h)]

theorem readFromUrl_yearFrom (aJ aS : List String) (prev : Snapshot)
    {ps : List (String × String)} (h : ps ≠ []) :
    (readFromUrl aJ aS prev ps).filters.yearFrom =
      (assocGet ps "year").elim prev.filters.yearFrom (fun v =>
        if (jsSplit v '-').getD 0 "" ≠ "" then (jsSplit v '-').getD 0 ""
        else prev.filters.yearFrom) := by
  rw [readFromUrl, if_neg (by simpa [List.isEmpty_iff] using h)]

theorem readFromUrl_yearTo (aJ aS : List String) (prev : Snapshot)
    {ps : List (String × String)} (h : ps ≠ []) :
    (readFromUrl aJ aS prev ps).filters.yearTo =
      (assocGet ps "year").elim prev.filters.yearTo (fun v =>
        if (jsSplit v '-').getD 1 "" ≠ "" then (jsSplit v '-').getD 1 ""
        else prev.filters.yearTo) := by
  rw [readFromUrl, if_neg (by simpa [List.isEmpty_iff] using h)]

theorem readFromUrl_accessFilter (aJ aS : List String) (prev : Snapshot)
    {ps : List (String × String)} (h : ps ≠ []) :
    (readFromUrl aJ aS prev ps).filters.accessFilter =
      (assocGet ps "access").getD prev.filters.accessFilter := by
  rw [readFromUrl, if_neg (by simpa [List.isEmpty_iff] using h)]

theorem readFromUrl_typeFilter (aJ aS : List String) (prev : Snapshot)
    {ps : List (String × String)} (h : ps ≠ []) :
    (readFromUrl aJ aS prev ps).filters.typeFilter =
      (assocGet ps "type").getD prev.filters.typeFilter := by
  rw [readFromUrl, if_neg (by simpa [List.isEmpty_iff] using h)]

theorem readFromUrl_selectedJournals (aJ aS : List String) (prev : Snapshot)
    {ps : List (String × String)} (h : ps ≠ []) :
    (readFromUrl aJ aS prev ps).filters.selectedJournals =
      (assocGet ps "journals").elim prev.filters.selectedJournals
        (fun v => jsSetOfList ((jsSplit v ',').filter (fun n => aJ.contains n))) := by
  rw [readFromUrl, if_neg (by simpa [List.isEmpty_iff] using h)]

theorem readFromUrl_selectedSubfields (aJ aS : List String) (prev : Snapshot)
    {ps : List (String × String)} (h : ps ≠ []) :
    (readFromUrl aJ aS prev ps).filters.selectedSubfields =
      (assocGet ps "subfield").elim prev.filters.selectedSubfields
        (fun v => jsSetOfList ((jsSplit v ',').filter (fun c => aS.contains c))) := by
  rw [readFromUrl, if_neg (by simpa [List.isEmpty_iff] using h)]

theorem readFromUrl_sortKey (aJ aS : List String) (prev : Snapshot)
    {ps : List (String × String)} (h : ps ≠ []) :
    (readFromUrl aJ aS prev ps).sortKey =
      (assocGet ps "sort").elim prev.sortKey (fun v =>
        if (jsSplit v '-').length = 2 then (jsSplit v '-').getD 0 ""
        else prev.sortKey) := by
  rw [readFromUrl, if_neg (by simpa [List.isEmpty_iff] using h)]

theorem readFromUrl_sortDir (aJ aS : List String) (prev : Snapshot)
    {ps : List (String × String)} (h : ps ≠ []) :
    (readFromUrl aJ aS prev ps).sortDir =
      (assocGet ps "sort").elim prev.sortDir (fun v =>
        if (jsSplit v '-').length = 2 then (jsSplit v '-').getD 1 ""
        else prev.sortDir) := by
  rw [readFromUrl, if_neg (by simpa [List.isEmpty_iff] using h)]

theorem readFromUrl_page (aJ aS : List String) (prev : Snapshot)
    {ps : List (String × String)} (h : ps ≠ []) :
    (readFromUrl aJ aS prev ps).page =
      (assocGet ps "page").elim prev.page (fun v =>
        (jsParseInt v).elim 1 (fun n => if n = 0 then 1 else n)) := by
  rw [readFromUrl, if_neg (by simpa [List.isEmpty_iff] using h)]

/-- **C1 (amended)** Encoding a view state and decoding the fragment on a
fresh load reproduces an equivalent filter/sort/page state — the decoded and
original states filter every dataset identically and agree on sort key, sort
direction and page — provided the selected facet sets are nonempty (an empty
"show nothing" selection is omitted from the URL and decodes to the default
full selection), facet values contain no comma, the year fields and the sort
key/direction contain no dash, and the page is at least 1. -/
theorem c1_url_roundtrip_amended (allJ allS : List String) (s : Snapshot)
    (hJall : allJ.Nodup) (hSall : allS.Nodup)
    (hJne : s.filters.selectedJournals ≠ [])
    (hJsub : ∀ x ∈ s.filters.selectedJournals, x ∈ allJ)
    (hJnd : s.filters.selectedJournals.Nodup)
    (hJc : ∀ x ∈ s.filters.selectedJournals, ',' ∉ x.data)
    (hSne : s.filters.selectedSubfields ≠ [])
    (hSsub : ∀ x ∈ s.filters.selectedSubfields, x ∈ allS)
    (hSnd : s.filters.selectedSubfields.Nodup)
    (hSc : ∀ x ∈ s.filters.selectedSubfields, ',' ∉ x.data)
    (hyf : '-' ∉ s.filters.yearFrom.data) (hyt : '-' ∉ s.filters.yearTo.data)
    (hskd : '-' ∉ s.sortKey.data) (hsdd : '-' ∉ s.sortDir.data)
    (hpg : 1 ≤ s.page) :
    (∀ D : List ReviewEntry,
      applyFilters D allJ allS
          (readFromUrl allJ allS (defaultSnapshot allJ allS)
            (syncToUrl allJ allS s)).filters =
        applyFilters D allJ allS s.filters) ∧
    (readFromUrl allJ allS (defaultSnapshot allJ allS)
      (syncToUrl allJ allS s)).sortKey = s.sortKey ∧
    (readFromUrl allJ allS (defaultSnapshot allJ allS)
      (syncToUrl allJ allS s)).sortDir = s.sortDir ∧
    (readFromUrl allJ allS (defaultSnapshot allJ allS)
      (syncToUrl allJ allS s)).page = s.page := by
  have hposJ : 0 < s.filters.selectedJournals.length :=
    List.length_pos.mpr hJne
  have hposS : 0 < s.filters.selectedSubfields.length :=
    List.length_pos.mpr hSne
  have hleJ : s.filters.selectedJournals.length ≤ allJ.length :=
    nodup_subset_length hJnd hJsub
  have hleS : s.filters.selectedSubfields.length ≤ allS.length :=
    nodup_subset_length hSnd hSsub
  by_cases hps : syncToUrl allJ allS s = []
  · -- everything was at its default; the decode is the default snapshot
    have hq0 : jsTrim s.filters.globalSearch = "" :=
      not_ne_iff.mp (not_cond_of_assocGet_nil (hps ▸ syncToUrl_get_q allJ allS s))
    have ht0 : jsTrim s.filters.titleFilter = "" :=
      not_ne_iff.mp (not_cond_of_assocGet_nil (hps ▸ syncToUrl_get_title allJ allS s))
    have ha0 : jsTrim s.filters.authorFilter = "" :=
      not_ne_iff.mp (not_cond_of_assocGet_nil (hps ▸ syncToUrl_get_author allJ allS s))
    have hr0 : jsTrim s.filters.reviewerFilter = "" :=
      not_ne_iff.mp (not_cond_of_assocGet_nil (hps ▸ syncToUrl_get_reviewer allJ allS s))
    have hS0 := not_cond_of_assocGet_nil (hps ▸ syncToUrl_get_subfield allJ allS s)
    have hJ0 := not_cond_of_assocGet_nil (hps ▸ syncToUrl_get_journals allJ allS s)
    have hy0 := not_cond_of_assocGet_nil (hps ▸ syncToUrl_get_year allJ allS s)
    have hyf0 : s.filters.yearFrom = "" :=
      not_ne_iff.mp (fun hcc => hy0 (Or.inl hcc))
    have hyt0 : s.filters.yearTo = "" :=
      not_ne_iff.mp (fun hcc => hy0 (Or.inr hcc))
    have hac0 : s.filters.accessFilter = "" :=
      not_ne_iff.mp (not_cond_of_assocGet_nil (hps ▸ syncToUrl_get_access allJ allS s))
    have hty0 : s.filters.typeFilter = "" :=
      not_ne_iff.mp (not_cond_of_assocGet_nil (hps ▸ syncToUrl_get_type allJ allS s))
    have hsort0 : s.sortKey = "date" ∧ s.sortDir = "desc" :=
      not_not.mp (not_cond_of_assocGet_nil (hps ▸ syncToUrl_get_sort allJ allS s))
    have hpg0 : s.page = 1 := by
      have hle := not_cond_of_assocGet_nil (hps ▸ syncToUrl_get_page allJ allS s)
      omega
    have hJfull : s.filters.selectedJournals.length = allJ.length := by
      have hnlt : ¬ s.filters.selectedJournals.length < allJ.length :=
        fun hlt => hJ0 ⟨hposJ, hlt⟩
      omega
    have hSfull : s.filters.selectedSubfields.length = allS.length := by
      have hnlt : ¬ s.filters.selectedSubfields.length < allS.length :=
        fun hlt => hS0 ⟨hposS, hlt⟩
      omega
    have hdec : readFromUrl allJ allS (defaultSnapshot allJ allS)
        (syncToUrl allJ allS s) = defaultSnapshot allJ allS := by
      rw [hps]
      rfl
    rw [hdec]
    refine ⟨?_, hsort0.1.symm, hsort0.2.symm, by rw [hpg0]; rfl⟩
    intro D
    apply applyFilters_congr
    apply entryPasses_congr
    · show jsTrim (jsToLower "") = jsTrim (jsToLower s.filters.globalSearch)
      rw [jsTrim_jsToLower_comm, jsTrim_jsToLower_comm, hq0]
      rfl
    · show jsTrim (jsToLower "") = jsTrim (jsToLower s.filters.titleFilter)
      rw [jsTrim_jsToLower_comm, jsTrim_jsToLower_comm, ht0]
      rfl
    · show jsTrim (jsToLower "") = jsTrim (jsToLower s.filters.authorFilter)
      rw [jsTrim_jsToLower_comm, jsTrim_jsToLower_comm, ha0]
      rfl
    · show jsTrim (jsToLower "") = jsTrim (jsToLower s.filters.reviewerFilter)
      rw [jsTrim_jsToLower_comm, jsTrim_jsToLower_comm, hr0]
      rfl
    · exact hyf0.symm
    · exact hyt0.symm
    · exact hac0.symm
    · exact hty0.symm
    · exact mem_iff_of_full hJnd hJall hJsub hJfull
    · show allJ.length = s.filters.selectedJournals.length
      omega
    · exact mem_iff_of_full hSnd hSall hSsub hSfull
    · show allS.length = s.filters.selectedSubfields.length
      omega
  · -- the fragment is nonempty: every key decodes to its encoded value
    have hsplitJ : jsSplit (jsJoin "," s.filters.selectedJournals) ',' =
        s.filters.selectedJournals :=
      jsSplit_jsJoin ',' "," rfl _ hJne hJc
    have hsplitS : jsSplit (jsJoin "," s.filters.selectedSubfields) ',' =
        s.filters.selectedSubfields :=
      jsSplit_jsJoin ',' "," rfl _ hSne hSc
    have hsplitY : jsSplit (s.filters.yearFrom ++ "-" ++ s.filters.yearTo) '-' =
        [s.filters.yearFrom, s.filters.yearTo] := by
      have h := jsSplit_jsJoin '-' "-" rfl [s.filters.yearFrom, s.filters.yearTo]
        (by simp) (by
          intro x hx
          rcases List.mem_cons.mp hx with rfl | hx2
          · exact hyf
          · rcases List.mem_singleton.mp hx2 with rfl
            exact hyt)
      simpa [jsJoin] using h
    have hsplitK : jsSplit (s.sortKey ++ "-" ++ s.sortDir) '-' =
        [s.sortKey, s.sortDir] := by
      have h := jsSplit_jsJoin '-' "-" rfl [s.sortKey, s.sortDir]
        (by simp) (by
          intro x hx
          rcases List.mem_cons.mp hx with rfl | hx2
          · exact hskd
          · rcases List.mem_singleton.mp hx2 with rfl
            exact hsdd)
      simpa [jsJoin] using h
    have hq : (readFromUrl allJ allS (defaultSnapshot allJ allS)
        (syncToUrl allJ allS s)).filters.globalSearch =
        jsTrim s.filters.globalSearch := by
      rw [readFromUrl_globalSearch allJ allS _ hps, syncToUrl_get_q]
      by_cases hc : jsTrim s.filters.globalSearch ≠ ""
      · rw [if_pos hc, Option.getD_some]
      · rw [if_neg hc, Option.getD_none, not_ne_iff.mp hc]
        rfl
    have ht : (readFromUrl allJ allS (defaultSnapshot allJ allS)
        (syncToUrl allJ allS s)).filters.titleFilter =
        jsTrim s.filters.titleFilter := by
      rw [readFromUrl_titleFilter allJ allS _ hps, syncToUrl_get_title]
      by_cases hc : jsTrim s.filters.titleFilter ≠ ""
      · rw [if_pos hc, Option.getD_some]
      · rw [if_neg hc, Option.getD_none, not_ne_iff.mp hc]
        rfl
    have hau : (readFromUrl allJ allS (defaultSnapshot allJ allS)
        (syncToUrl allJ allS s)).filters.authorFilter =
        jsTrim s.filters.authorFilter := by
      rw [readFromUrl_authorFilter allJ allS _ hps, syncToUrl_get_author]
      by_cases hc : jsTrim s.filters.authorFilter ≠ ""
      · rw [if_pos hc, Option.getD_some]
      · rw [if_neg hc, Option.getD_none, not_ne_iff.mp hc]
        rfl
    have hre : (readFromUrl allJ allS (defaultSnapshot allJ allS)
        (syncToUrl allJ allS s)).filters.reviewerFilter =
        jsTrim s.filters.reviewerFilter := by
      rw [readFromUrl_reviewerFilter allJ allS _ hps, syncToUrl_get_reviewer]
      by_cases hc : jsTrim s.filters.reviewerFilter ≠ ""
      · rw [if_pos hc, Option.getD_some]
      · rw [if_neg hc, Option.getD_none, not_ne_iff.mp hc]
        rfl
    have hyfE : (readFromUrl allJ allS (defaultSnapshot allJ allS)
        (syncToUrl allJ allS s)).filters.yearFrom = s.filters.yearFrom := by
      rw [readFromUrl_yearFrom allJ allS _ hps, syncToUrl_get_year]
      by_cases hc : s.filters.yearFrom ≠ "" ∨ s.filters.yearTo ≠ ""
      · rw [if_pos hc]
        simp only [Option.elim_some]
        rw [hsplitY]
        by_cases hc1 : s.filters.yearFrom ≠ ""
        · rw [if_pos (by simpa using hc1)]
          rfl
        · rw [if_neg (by simpa using hc1), not_ne_iff.mp hc1]
          rfl
      · push_neg at hc
        rw [if_neg (by simpa using hc), Option.elim_none, hc.1]
        rfl
    have hytE : (readFromUrl allJ allS (defaultSnapshot allJ allS)
        (syncToUrl allJ allS s)).filters.yearTo = s.filters.yearTo := by
      rw [readFromUrl_yearTo allJ allS _ hps, syncToUrl_get_year]
      by_cases hc : s.filters.yearFrom ≠ "" ∨ s.filters.yearTo ≠ ""
      · rw [if_pos hc]
        simp only [Option.elim_some]
        rw [hsplitY]
        by_cases hc2 : s.filters.yearTo ≠ ""
        · rw [if_pos (by simpa using hc2)]
          rfl
        · rw [if_neg (by simpa using hc2), not_ne_iff.mp hc2]
          rfl
      · push_neg at hc
        rw [if_neg (by simpa using hc), Option.elim_none, hc.2]
        rfl
    have hacE : (readFromUrl allJ allS (defaultSnapshot allJ allS)
        (syncToUrl allJ allS s)).filters.accessFilter = s.filters.accessFilter := by
      rw [readFromUrl_accessFilter allJ allS _ hps, syncToUrl_get_access]
      by_cases hc : s.filters.accessFilter ≠ ""
      · rw [if_pos hc, Option.getD_some]
      · rw [if_neg hc, Option.getD_none, not_ne_iff.mp hc]
        rfl
    have htyE : (readFromUrl allJ allS (defaultSnapshot allJ allS)
        (syncToUrl allJ allS s)).filters.typeFilter = s.filters.typeFilter := by
      rw [readFromUrl_typeFilter allJ allS _ hps, syncToUrl_get_type]
      by_cases hc : s.filters.typeFilter ≠ ""
      · rw [if_pos hc, Option.getD_some]
      · rw [if_neg hc, Option.getD_none, not_ne_iff.mp hc]
        rfl
    have hselJ : ((readFromUrl allJ allS (defaultSnapshot allJ allS)
          (syncToUrl allJ allS s)).filters.selectedJournals =
            s.filters.selectedJournals) ∨
        ((readFromUrl allJ allS (defaultSnapshot allJ allS)
          (syncToUrl allJ allS s)).filters.selectedJournals = allJ ∧
          s.filters.selectedJournals.length = allJ.length) := by
      rw [readFromUrl_selectedJournals allJ allS _ hps, syncToUrl_get_journals]
      by_cases hc : 0 < s.filters.selectedJournals.length ∧
          s.filters.selectedJournals.length < allJ.length
      · left
        rw [if_pos hc]
        simp only [Option.elim_some]
        rw [hsplitJ, filter_contains_self hJsub, jsSetOfList_nodup hJnd]
      · right
        have hnlt : ¬ s.filters.selectedJournals.length < allJ.length :=
          fun hlt => hc ⟨hposJ, hlt⟩
        refine ⟨?_, by omega⟩
        rw [if_neg hc, Option.elim_none]
        rfl
    have hselS : ((readFromUrl allJ allS (defaultSnapshot allJ allS)
          (syncToUrl allJ allS s)).filters.selectedSubfields =
            s.filters.selectedSubfields) ∨
        ((readFromUrl allJ allS (defaultSnapshot allJ allS)
          (syncToUrl allJ allS s)).filters.selectedSubfields = allS ∧
          s.filters.selectedSubfields.length = allS.length) := by
      rw [readFromUrl_selectedSubfields allJ allS _ hps, syncToUrl_get_subfield]
      by_cases hc : 0 < s.filters.selectedSubfields.length ∧
          s.filters.selectedSubfields.length < allS.length
      · left
        rw [if_pos hc]
        simp only [Option.elim_some]
        rw [hsplitS, filter_contains_self hSsub, jsSetOfList_nodup hSnd]
      · right
        have hnlt : ¬ s.filters.selectedSubfields.length < allS.length :=
          fun hlt => hc ⟨hposS, hlt⟩
        refine ⟨?_, by omega⟩
        rw [if_neg hc, Option.elim_none]
        rfl
    have hsortK : (readFromUrl allJ allS (defaultSnapshot allJ allS)
        (syncToUrl allJ allS s)).sortKey = s.sortKey := by
      rw [readFromUrl_sortKey allJ allS _ hps, syncToUrl_get_sort]
      by_cases hc : ¬(s.sortKey = "date" ∧ s.sortDir = "desc")
      · rw [if_pos hc]
        simp only [Option.elim_some]
        rw [hsplitK]
        simp
      · rw [if_neg hc, Option.elim_none]
        exact (not_not.mp hc).1.symm
    have hsortD : (readFromUrl allJ allS (defaultSnapshot allJ allS)
        (syncToUrl allJ allS s)).sortDir = s.sortDir := by
      rw [readFromUrl_sortDir allJ allS _ hps, syncToUrl_get_sort]
      by_cases hc : ¬(s.sortKey = "date" ∧ s.sortDir = "desc")
      · rw [if_pos hc]
        simp only [Option.elim_some]
        rw [hsplitK]
        simp
      · rw [if_neg hc, Option.elim_none]
        exact (not_not.mp hc).2.symm
    have hpage : (readFromUrl allJ allS (defaultSnapshot allJ allS)
        (syncToUrl allJ allS s)).page = s.page := by
      rw [readFromUrl_page allJ allS _ hps, syncToUrl_get_page]
      by_cases hc : 1 < s.page
      · rw [if_pos hc]
        simp only [Option.elim_some]
        rw [jsParseInt_jsIntToString (by omega)]
        simp only [Option.elim_some]
        rw [if_neg (by omega)]
      · rw [if_neg hc, Option.elim_none]
        show (1 : Int) = s.page
        omega
    refine ⟨?_, hsortK, hsortD, hpage⟩
    intro D
    apply applyFilters_congr
    apply entryPasses_congr
    · rw [hq, trim_lower_trim]
    · rw [ht, trim_lower_trim]
    · rw [hau, trim_lower_trim]
    · rw [hre, trim_lower_trim]
    · exact hyfE
    · exact hytE
    · exact hacE
    · exact htyE
    · rcases hselJ with h | ⟨hd, hlen⟩
      · intro x
        rw [h]
      · intro x
        rw [hd]
        exact mem_iff_of_full hJnd hJall hJsub hlen x
    · rcases hselJ with h | ⟨hd, hlen⟩
      · rw [h]
      · rw [hd]
        omega
    · rcases hselS with h | ⟨hd, hlen⟩
      · intro x
        rw [h]
      · intro x
        rw [hd]
        exact mem_iff_of_full hSnd hSall hSsub hlen x
    · rcases hselS with h | ⟨hd, hlen⟩
      · rw [h]
      · rw [hd]
        omega

/-- A concrete non-default view state exercising every encoded key. -/
def snapW : Snapshot :=
  { filters := { globalSearch := " X ", authorFilter := "hobbes",
                 yearFrom := "2010",
                 selectedJournals := ["B"], selectedSubfields := ["legal"] },
    page := 2, perPage := 25, sortKey := "title", sortDir := "asc",
    expandedIdx := some 0 }

/-- Witness for C1 at the concrete state `snapW` over a two-entry dataset. -/
theorem c1_url_roundtrip_amended_witness :
    ((["A", "B"] : List String).Nodup ∧ (["ethics", "legal"] : List String).Nodup ∧
     snapW.filters.selectedJournals ≠ [] ∧
     (∀ x ∈ snapW.filters.selectedJournals, x ∈ ["A", "B"]) ∧
     snapW.filters.selectedJournals.Nodup ∧
     (∀ x ∈ snapW.filters.selectedJournals, ',' ∉ x.data) ∧
     snapW.filters.selectedSubfields ≠ [] ∧
     (∀ x ∈ snapW.filters.selectedSubfields, x ∈ ["ethics", "legal"]) ∧
     snapW.filters.selectedSubfields.Nodup ∧
     (∀ x ∈ snapW.filters.selectedSubfields, ',' ∉ x.data) ∧
     '-' ∉ snapW.filters.yearFrom.data ∧ '-' ∉ snapW.filters.yearTo.data ∧
     '-' ∉ snapW.sortKey.data ∧ '-' ∉ snapW.sortDir.data ∧ (1 : Int) ≤ snapW.page) ∧
    (applyFilters [entA, entB] ["A", "B"] ["ethics", "legal"]
        (readFromUrl ["A", "B"] ["ethics", "legal"]
          (defaultSnapshot ["A", "B"] ["ethics", "legal"])
          (syncToUrl ["A", "B"] ["ethics", "legal"] snapW)).filters =
      applyFilters [entA, entB] ["A", "B"] ["ethics", "legal"] snapW.filters ∧
     (readFromUrl ["A", "B"] ["ethics", "legal"]
        (defaultSnapshot ["A", "B"] ["ethics", "legal"])
        (syncToUrl ["A", "B"] ["ethics", "legal"] snapW)).sortKey = snapW.sortKey ∧
     (readFromUrl ["A", "B"] ["ethics", "legal"]
        (defaultSnapshot ["A", "B"] ["ethics", "legal"])
        (syncToUrl ["A", "B"] ["ethics", "legal"] snapW)).sortDir = snapW.sortDir ∧
     (readFromUrl ["A", "B"] ["ethics", "legal"]
        (defaultSnapshot ["A", "B"] ["ethics", "legal"])
        (syncToUrl ["A", "B"] ["ethics", "legal"] snapW)).page = snapW.page) := by
  have h := c1_url_roundtrip_amended ["A", "B"] ["ethics", "legal"] snapW
    (by decide) (by decide) (by decide) (by decide) (by decide) (by decide)
    (by decide) (by decide) (by decide) (by decide) (by decide) (by decide)
    (by decide) (by decide) (by decide)
  exact ⟨⟨by decide, by decide, by decide, by decide, by decide, by decide,
      by decide, by decide, by decide, by decide, by decide, by decide,
      by decide, by decide, by decide⟩,
    h.1 [entA, entB], h.2.1, h.2.2.1, h.2.2.2⟩
